import Mathlib

/-!
Verification of the mktour WebSocket server specification against the
repository's sources.

The repository ships, under source control here: the integration test suite
for the WebSocket server, the wire-type declarations (ws-events.d.ts), and
the database schema/relations.  The implementation bodies of the session
codec (lib/crypto), the topic registry, and the authorization gate are not
among the shipped sources; where a property depends on one of those bodies,
the corresponding definition below is modelled from the specification text
(spec.md) and is marked as such in its doc comment.  Everything else is a
direct shallow embedding of the shipped source files.
-/

/-! ## Session Codec

Modelled from the spec: `src/lib/crypto` (the `encrypt`/`decrypt`
implementation) is not among the shipped sources; only the tests exercising
it are.  Per spec section 4.1 the codec is a symmetric, keyed scheme whose
output alphabet is URL-safe (none of the characters `:`, `/`, `+`, `=`),
which round-trips exactly and detects any corruption of a token (an
authentication tag or checksum baked into the token format).

The model: the plaintext is the list of character codepoints (each below
2^24); each codepoint is XOR-ed with a key-derived stream value; a keyed
checksum over the ciphertext groups is appended; every 24-bit group is
written as six lowercase-hex characters (a URL-safe encoding of the raw
ciphertext bytes).  Decryption reverses the steps and fails on any parse or
checksum mismatch.
-/

def hexDigitChar (n : Nat) : Char :=
  if n < 10 then Char.ofNat (48 + n) else Char.ofNat (87 + n)

def hexVal? (c : Char) : Option Nat :=
  if 48 ≤ c.toNat ∧ c.toNat ≤ 57 then some (c.toNat - 48)
  else if 97 ≤ c.toNat ∧ c.toNat ≤ 102 then some (c.toNat - 87)
  else none

theorem hexVal?_hexDigitChar : ∀ n < 16, hexVal? (hexDigitChar n) = some n := by decide

theorem hexVal?_some_eq (c : Char) (v : Nat) (h : hexVal? c = some v) :
    v < 16 ∧ hexDigitChar v = c := by
  unfold hexVal? at h
  split_ifs at h with h1 h2
  · obtain ⟨ha, hb⟩ := h1
    injection h with h
    subst h
    constructor
    · omega
    · unfold hexDigitChar
      rw [if_pos (by omega)]
      have : 48 + (c.toNat - 48) = c.toNat := by omega
      rw [this, Char.ofNat_toNat]
  · obtain ⟨ha, hb⟩ := h2
    injection h with h
    subst h
    constructor
    · omega
    · unfold hexDigitChar
      rw [if_neg (by omega)]
      have : 87 + (c.toNat - 87) = c.toNat := by omega
      rw [this, Char.ofNat_toNat]

def toHex6 (n : Nat) : List Char :=
  [hexDigitChar (n / 1048576 % 16), hexDigitChar (n / 65536 % 16),
   hexDigitChar (n / 4096 % 16), hexDigitChar (n / 256 % 16),
   hexDigitChar (n / 16 % 16), hexDigitChar (n % 16)]

def fromHex6 : List Char → Option Nat
  | [c0, c1, c2, c3, c4, c5] =>
    match hexVal? c0, hexVal? c1, hexVal? c2, hexVal? c3, hexVal? c4, hexVal? c5 with
    | some d0, some d1, some d2, some d3, some d4, some d5 =>
      some (d0 * 1048576 + d1 * 65536 + d2 * 4096 + d3 * 256 + d4 * 16 + d5)
    | _, _, _, _, _, _ => none
  | _ => none

theorem toHex6_length (n : Nat) : (toHex6 n).length = 6 := rfl

theorem fromHex6_toHex6 (n : Nat) (h : n < 16777216) : fromHex6 (toHex6 n) = some n := by
  have h0 : n / 1048576 % 16 < 16 := Nat.mod_lt _ (by norm_num)
  have h1 : n / 65536 % 16 < 16 := Nat.mod_lt _ (by norm_num)
  have h2 : n / 4096 % 16 < 16 := Nat.mod_lt _ (by norm_num)
  have h3 : n / 256 % 16 < 16 := Nat.mod_lt _ (by norm_num)
  have h4 : n / 16 % 16 < 16 := Nat.mod_lt _ (by norm_num)
  have h5 : n % 16 < 16 := Nat.mod_lt _ (by norm_num)
  simp only [toHex6, fromHex6, hexVal?_hexDigitChar _ h0, hexVal?_hexDigitChar _ h1,
    hexVal?_hexDigitChar _ h2, hexVal?_hexDigitChar _ h3, hexVal?_hexDigitChar _ h4,
    hexVal?_hexDigitChar _ h5, Option.some.injEq]
  omega

/-- The key-derived XOR stream value used for every ciphertext position. -/
def ksOf (key : Nat) : Nat := key % 16777216

/-- The keyed checksum appended to the ciphertext groups. -/
def macOf (key : Nat) (cipher : List Nat) : Nat := (cipher.sum + key) % 16777216

/-- Modelled from the spec: `encrypt` over codepoint lists.  The ciphertext
groups (codepoints XOR stream) followed by the keyed checksum, each group
written as six hex characters. -/
def encryptL (key : Nat) (cps : List Nat) : List Char :=
  let cipher := cps.map fun n => n ^^^ ksOf key
  ((cipher ++ [macOf key cipher]).map toHex6).flatten

def chunks6 : List Char → Option (List (List Char))
  | [] => some []
  | c0 :: c1 :: c2 :: c3 :: c4 :: c5 :: rest =>
    (chunks6 rest).map fun bs => [c0, c1, c2, c3, c4, c5] :: bs
  | _ => none

def parseGroups : List (List Char) → Option (List Nat)
  | [] => some []
  | b :: bs =>
    match fromHex6 b, parseGroups bs with
    | some v, some vs => some (v :: vs)
    | _, _ => none

/-- Modelled from the spec: `decrypt` over the token's character list.
Fails (returns `none`, the model of `InvalidTokenError`) on any chunking or
hex-parse failure and on checksum mismatch. -/
def decryptL (key : Nat) (cs : List Char) : Option (List Nat) :=
  (chunks6 cs).bind fun bs =>
    (parseGroups bs).bind fun gs =>
      match gs.reverse with
      | [] => none
      | mac :: revCipher =>
        let cipher := revCipher.reverse
        if mac = macOf key cipher then some (cipher.map fun n => n ^^^ ksOf key) else none

/-- Modelled from the spec: `encrypt(plaintext) -> token` of section 4.1. -/
def encrypt (key : Nat) (s : String) : String :=
  String.mk (encryptL key (s.data.map Char.toNat))

/-- Modelled from the spec: `decrypt(token) -> plaintext` of section 4.1;
`none` models `InvalidTokenError`. -/
def decrypt (key : Nat) (t : String) : Option String :=
  (decryptL key t.data).map fun cps => String.mk (cps.map Char.ofNat)

theorem char_toNat_lt (c : Char) : c.toNat < 16777216 := by
  have h := c.valid
  rcases h with h | ⟨_, h⟩ <;>
    simp only [Char.toNat] <;> omega

theorem chunks6_flatten : ∀ B : List (List Char), (∀ b ∈ B, b.length = 6) →
    chunks6 B.flatten = some B := by
  intro B
  induction B with
  | nil => intro _; rfl
  | cons b bs ih =>
    intro h
    have hb : b.length = 6 := h b (List.mem_cons_self b bs)
    obtain ⟨c0, b1, rfl⟩ : ∃ c0 b1, b = c0 :: b1 := by
      cases b with
      | nil => simp at hb
      | cons x xs => exact ⟨x, xs, rfl⟩
    obtain ⟨c1, b2, rfl⟩ : ∃ c1 b2, b1 = c1 :: b2 := by
      cases b1 with
      | nil => simp at hb
      | cons x xs => exact ⟨x, xs, rfl⟩
    obtain ⟨c2, b3, rfl⟩ : ∃ c2 b3, b2 = c2 :: b3 := by
      cases b2 with
      | nil => simp at hb
      | cons x xs => exact ⟨x, xs, rfl⟩
    obtain ⟨c3, b4, rfl⟩ : ∃ c3 b4, b3 = c3 :: b4 := by
      cases b3 with
      | nil => simp at hb
      | cons x xs => exact ⟨x, xs, rfl⟩
    obtain ⟨c4, b5, rfl⟩ : ∃ c4 b5, b4 = c4 :: b5 := by
      cases b4 with
      | nil => simp at hb
      | cons x xs => exact ⟨x, xs, rfl⟩
    obtain ⟨c5, b6, rfl⟩ : ∃ c5 b6, b5 = c5 :: b6 := by
      cases b5 with
      | nil => simp at hb
      | cons x xs => exact ⟨x, xs, rfl⟩
    obtain rfl : b6 = [] := by
      cases b6 with
      | nil => rfl
      | cons x xs => simp at hb
    have hrest : chunks6 bs.flatten = some bs := ih fun x hx => h x (List.mem_cons_of_mem _ hx)
    simp [chunks6, hrest]

theorem parseGroups_map_toHex6 : ∀ gs : List Nat, (∀ g ∈ gs, g < 16777216) →
    parseGroups (gs.map toHex6) = some gs := by
  intro gs
  induction gs with
  | nil => intro _; rfl
  | cons g gs ih =>
    intro h
    have hg : fromHex6 (toHex6 g) = some g := fromHex6_toHex6 g (h g (List.mem_cons_self g gs))
    have hrest := ih fun x hx => h x (List.mem_cons_of_mem _ hx)
    simp [parseGroups, hg, hrest]

theorem cipher_lt (key : Nat) (cps : List Nat) (h : ∀ n ∈ cps, n < 16777216) :
    ∀ m ∈ cps.map (fun n => n ^^^ ksOf key), m < 16777216 := by
  intro m hm
  rw [List.mem_map] at hm
  obtain ⟨n, hn, rfl⟩ := hm
  have h1 : n < 2 ^ 24 := by have := h n hn; norm_num; omega
  have h2 : ksOf key < 2 ^ 24 := by unfold ksOf; norm_num; omega
  have := Nat.xor_lt_two_pow h1 h2
  norm_num at this
  omega

/-- C2 (spec-modelled): `decrypt` is the exact inverse of `encrypt` on every
string, for every key. -/
theorem decrypt_encrypt (key : Nat) (s : String) : decrypt key (encrypt key s) = some s := by
  unfold decrypt encrypt encryptL
  have hcps : ∀ n ∈ s.data.map Char.toNat, n < 16777216 := by
    intro n hn
    rw [List.mem_map] at hn
    obtain ⟨c, _, rfl⟩ := hn
    exact char_toNat_lt c
  set cps := s.data.map Char.toNat with hcpsdef
  set cipher := cps.map (fun n => n ^^^ ksOf key) with hcipher
  have hlt : ∀ m ∈ cipher, m < 16777216 := cipher_lt key cps hcps
  have hblocks : ∀ b ∈ (cipher ++ [macOf key cipher]).map toHex6, b.length = 6 := by
    intro b hb
    rw [List.mem_map] at hb
    obtain ⟨g, _, rfl⟩ := hb
    exact toHex6_length g
  have hglt : ∀ g ∈ cipher ++ [macOf key cipher], g < 16777216 := by
    intro g hg
    rcases List.mem_append.mp hg with h | h
    · exact hlt g h
    · simp at h
      subst h
      unfold macOf
      omega
  simp only [String.data]
  unfold decryptL
  rw [chunks6_flatten _ hblocks]
  rw [Option.some_bind]
  rw [parseGroups_map_toHex6 _ hglt]
  rw [Option.some_bind]
  simp only [List.reverse_append, List.reverse_cons, List.reverse_nil, List.nil_append,
    List.singleton_append, List.reverse_reverse]
  rw [if_pos trivial]
  simp only [Option.map_some', Option.some.injEq]
  have h1 : (cipher.map fun n => n ^^^ ksOf key) = cps := by
    rw [hcipher, List.map_map]
    have h : ∀ n ∈ cps, ((fun n => n ^^^ ksOf key) ∘ fun n => n ^^^ ksOf key) n = id n :=
      fun n _ => Nat.xor_cancel_right (ksOf key) n
    rw [List.map_congr_left h, List.map_id]
  rw [h1, hcpsdef, List.map_map]
  have h2 : ∀ c ∈ s.data, (Char.ofNat ∘ Char.toNat) c = id c := fun c _ => Char.ofNat_toNat c
  rw [List.map_congr_left h2, List.map_id]

theorem hexDigitChar_urlsafe :
    ∀ m < 16, (!(hexDigitChar m == ':') && !(hexDigitChar m == '/') &&
      !(hexDigitChar m == '+') && !(hexDigitChar m == '=')) = true := by decide

/-- C7 (spec-modelled): every character of an encrypted token avoids the four
characters forbidden in a WebSocket subprotocol header value. -/
theorem encrypt_urlsafe (key : Nat) (s : String) :
    ((encrypt key s).data.all fun c =>
      !(c == ':') && !(c == '/') && !(c == '+') && !(c == '=')) = true := by
  rw [List.all_eq_true]
  intro c hc
  unfold encrypt encryptL at hc
  simp only [String.data] at hc
  rw [List.mem_flatten] at hc
  obtain ⟨b, hb, hcb⟩ := hc
  rw [List.mem_map] at hb
  obtain ⟨g, _, rfl⟩ := hb
  unfold toHex6 at hcb
  have harg : ∀ k : Nat, k % 16 < 16 := fun k => Nat.mod_lt _ (by norm_num)
  simp only [List.mem_cons, List.not_mem_nil, or_false] at hcb
  rcases hcb with rfl | rfl | rfl | rfl | rfl | rfl <;>
    exact hexDigitChar_urlsafe _ (harg _)

/-! ### Tamper detection (C4) -/

theorem set_append_left {α : Type} (l₁ l₂ : List α) (i : Nat) (a : α) (h : i < l₁.length) :
    (l₁ ++ l₂).set i a = l₁.set i a ++ l₂ := by
  induction l₁ generalizing i with
  | nil => simp at h
  | cons x xs ih =>
    cases i with
    | zero => rfl
    | succ n =>
      show x :: (xs ++ l₂).set n a = x :: (xs.set n a ++ l₂)
      rw [ih n (by simpa using h)]

theorem set_append_right_len {α : Type} (l₁ l₂ : List α) (k : Nat) (a : α) :
    (l₁ ++ l₂).set (l₁.length + k) a = l₁ ++ l₂.set k a := by
  induction l₁ with
  | nil => simp
  | cons x xs ih =>
    have h : (x :: xs).length + k = (xs.length + k) + 1 := by simp; omega
    rw [h]
    show x :: (xs ++ l₂).set (xs.length + k) a = x :: (xs ++ l₂.set k a)
    rw [ih]

theorem flatten6_length (B : List (List Char)) (h : ∀ b ∈ B, b.length = 6) :
    B.flatten.length = 6 * B.length := by
  induction B with
  | nil => rfl
  | cons b bs ih =>
    simp only [List.flatten_cons, List.length_append, List.length_cons]
    rw [h b (List.mem_cons_self b bs), ih fun x hx => h x (List.mem_cons_of_mem _ hx)]
    ring

theorem flatten6_getElem? (B : List (List Char)) (h : ∀ b ∈ B, b.length = 6) (i : Nat) :
    B.flatten[i]? = B[i / 6]?.bind fun b => b[i % 6]? := by
  induction B generalizing i with
  | nil => simp
  | cons b bs ih =>
    have hb : b.length = 6 := h b (List.mem_cons_self b bs)
    simp only [List.flatten_cons]
    rw [List.getElem?_append]
    by_cases hi : i < 6
    · rw [if_pos (by omega)]
      have h1 : i / 6 = 0 := by omega
      have h2 : i % 6 = i := by omega
      rw [h1, h2]
      simp
    · rw [if_neg (by omega)]
      have h1 : i / 6 = (i - 6) / 6 + 1 := by omega
      have h2 : i % 6 = (i - 6) % 6 := by omega
      rw [hb, h1, h2]
      simp only [List.getElem?_cons_succ]
      exact ih (fun x hx => h x (List.mem_cons_of_mem _ hx)) (i - 6)

theorem flatten6_set (B : List (List Char)) (h : ∀ b ∈ B, b.length = 6) (i : Nat) (c : Char)
    (bj : List Char) (hbj : B[i / 6]? = some bj) :
    B.flatten.set i c = (B.set (i / 6) (bj.set (i % 6) c)).flatten := by
  induction B generalizing i with
  | nil => simp at hbj
  | cons b bs ih =>
    have hb : b.length = 6 := h b (List.mem_cons_self b bs)
    simp only [List.flatten_cons]
    by_cases hi : i < 6
    · have h1 : i / 6 = 0 := by omega
      have h2 : i % 6 = i := by omega
      rw [h1] at hbj
      simp only [List.getElem?_cons_zero, Option.some.injEq] at hbj
      subst hbj
      rw [h1, h2, set_append_left _ _ _ _ (by omega)]
      rfl
    · have h1 : i / 6 = (i - 6) / 6 + 1 := by omega
      have h2 : i % 6 = (i - 6) % 6 := by omega
      rw [h1] at hbj
      simp only [List.getElem?_cons_succ] at hbj
      rw [h1, h2]
      have h3 : i = b.length + (i - 6) := by omega
      conv_lhs => rw [h3]
      rw [set_append_right_len]
      show b ++ bs.flatten.set (i - 6) c =
        b ++ (bs.set ((i - 6) / 6) (bj.set ((i - 6) % 6) c)).flatten
      rw [ih (fun x hx => h x (List.mem_cons_of_mem _ hx)) (i - 6) hbj]

theorem parseGroups_set_none (B : List (List Char)) (j : Nat) (b' : List Char)
    (hj : j < B.length) (hb : fromHex6 b' = none) : parseGroups (B.set j b') = none := by
  induction B generalizing j with
  | nil => simp at hj
  | cons b bs ih =>
    cases j with
    | zero =>
      simp only [List.set, parseGroups, hb]
    | succ n =>
      simp only [List.set, parseGroups]
      rw [ih n (by simpa using hj)]
      cases fromHex6 b <;> rfl

theorem parseGroups_set_some (B : List (List Char)) (gs : List Nat) (j : Nat) (b' : List Char)
    (v' : Nat) (hpg : parseGroups B = some gs) (hb : fromHex6 b' = some v') (hj : j < B.length) :
    parseGroups (B.set j b') = some (gs.set j v') := by
  induction B generalizing j gs with
  | nil => simp at hj
  | cons b bs ih =>
    rw [parseGroups] at hpg
    cases hfb : fromHex6 b with
    | none => rw [hfb] at hpg; exact absurd hpg (by simp)
    | some v =>
      rw [hfb] at hpg
      cases hpb : parseGroups bs with
      | none => rw [hpb] at hpg; exact absurd hpg (by simp)
      | some vs =>
        rw [hpb] at hpg
        simp only [Option.some.injEq] at hpg
        subst hpg
        cases j with
        | zero =>
          simp only [List.set, parseGroups, hb, hpb]
        | succ n =>
          simp only [List.set, parseGroups, hfb]
          rw [ih vs n hpb (by simpa using hj)]

theorem sum_set (gs : List Nat) (j v : Nat) (h : j < gs.length) :
    (gs.set j v).sum + gs[j] = gs.sum + v := by
  induction gs generalizing j with
  | nil => simp at h
  | cons a l ih =>
    cases j with
    | zero => simp [List.set]; omega
    | succ n =>
      simp only [List.set, List.sum_cons, List.getElem_cons_succ]
      have := ih n (by simpa using h)
      omega

theorem fromHex6_set (n : Nat) (hn : n < 16777216) (r : Nat) (hr : r < 6) (c : Char)
    (hc : (toHex6 n)[r]? ≠ some c) :
    fromHex6 ((toHex6 n).set r c) = none ∨
    ∃ v, fromHex6 ((toHex6 n).set r c) = some v ∧ v ≠ n ∧ v < 16777216 := by
  have hd0 : n / 1048576 % 16 < 16 := Nat.mod_lt _ (by norm_num)
  have hd1 : n / 65536 % 16 < 16 := Nat.mod_lt _ (by norm_num)
  have hd2 : n / 4096 % 16 < 16 := Nat.mod_lt _ (by norm_num)
  have hd3 : n / 256 % 16 < 16 := Nat.mod_lt _ (by norm_num)
  have hd4 : n / 16 % 16 < 16 := Nat.mod_lt _ (by norm_num)
  have hd5 : n % 16 < 16 := Nat.mod_lt _ (by norm_num)
  interval_cases r
  · cases hcv : hexVal? c with
    | none =>
      left
      simp only [toHex6, List.set, fromHex6, hcv]
    | some w =>
      right
      obtain ⟨hw, hwc⟩ := hexVal?_some_eq c w hcv
      have hne : w ≠ n / 1048576 % 16 := by
        intro heq
        apply hc
        rw [show (toHex6 n)[0]? = some (hexDigitChar (n / 1048576 % 16)) from rfl, ← hwc, heq]
      refine ⟨w * 1048576 + n / 65536 % 16 * 65536 + n / 4096 % 16 * 4096 +
        n / 256 % 16 * 256 + n / 16 % 16 * 16 + n % 16, ?_, by omega, by omega⟩
      simp only [toHex6, List.set, fromHex6, hcv, hexVal?_hexDigitChar _ hd1,
        hexVal?_hexDigitChar _ hd2, hexVal?_hexDigitChar _ hd3, hexVal?_hexDigitChar _ hd4,
        hexVal?_hexDigitChar _ hd5]
  · cases hcv : hexVal? c with
    | none =>
      left
      simp only [toHex6, List.set, fromHex6, hcv, hexVal?_hexDigitChar _ hd0]
    | some w =>
      right
      obtain ⟨hw, hwc⟩ := hexVal?_some_eq c w hcv
      have hne : w ≠ n / 65536 % 16 := by
        intro heq
        apply hc
        rw [show (toHex6 n)[1]? = some (hexDigitChar (n / 65536 % 16)) from rfl, ← hwc, heq]
      refine ⟨n / 1048576 % 16 * 1048576 + w * 65536 + n / 4096 % 16 * 4096 +
        n / 256 % 16 * 256 + n / 16 % 16 * 16 + n % 16, ?_, by omega, by omega⟩
      simp only [toHex6, List.set, fromHex6, hcv, hexVal?_hexDigitChar _ hd0,
        hexVal?_hexDigitChar _ hd2, hexVal?_hexDigitChar _ hd3, hexVal?_hexDigitChar _ hd4,
        hexVal?_hexDigitChar _ hd5]
  · cases hcv : hexVal? c with
    | none =>
      left
      simp only [toHex6, List.set, fromHex6, hcv, hexVal?_hexDigitChar _ hd0,
        hexVal?_hexDigitChar _ hd1]
    | some w =>
      right
      obtain ⟨hw, hwc⟩ := hexVal?_some_eq c w hcv
      have hne : w ≠ n / 4096 % 16 := by
        intro heq
        apply hc
        rw [show (toHex6 n)[2]? = some (hexDigitChar (n / 4096 % 16)) from rfl, ← hwc, heq]
      refine ⟨n / 1048576 % 16 * 1048576 + n / 65536 % 16 * 65536 + w * 4096 +
        n / 256 % 16 * 256 + n / 16 % 16 * 16 + n % 16, ?_, by omega, by omega⟩
      simp only [toHex6, List.set, fromHex6, hcv, hexVal?_hexDigitChar _ hd0,
        hexVal?_hexDigitChar _ hd1, hexVal?_hexDigitChar _ hd3, hexVal?_hexDigitChar _ hd4,
        hexVal?_hexDigitChar _ hd5]
  · cases hcv : hexVal? c with
    | none =>
      left
      simp only [toHex6, List.set, fromHex6, hcv, hexVal?_hexDigitChar _ hd0,
        hexVal?_hexDigitChar _ hd1, hexVal?_hexDigitChar _ hd2]
    | some w =>
      right
      obtain ⟨hw, hwc⟩ := hexVal?_some_eq c w hcv
      have hne : w ≠ n / 256 % 16 := by
        intro heq
        apply hc
        rw [show (toHex6 n)[3]? = some (hexDigitChar (n / 256 % 16)) from rfl, ← hwc, heq]
      refine ⟨n / 1048576 % 16 * 1048576 + n / 65536 % 16 * 65536 + n / 4096 % 16 * 4096 +
        w * 256 + n / 16 % 16 * 16 + n % 16, ?_, by omega, by omega⟩
      simp only [toHex6, List.set, fromHex6, hcv, hexVal?_hexDigitChar _ hd0,
        hexVal?_hexDigitChar _ hd1, hexVal?_hexDigitChar _ hd2, hexVal?_hexDigitChar _ hd4,
        hexVal?_hexDigitChar _ hd5]
  · cases hcv : hexVal? c with
    | none =>
      left
      simp only [toHex6, List.set, fromHex6, hcv, hexVal?_hexDigitChar _ hd0,
        hexVal?_hexDigitChar _ hd1, hexVal?_hexDigitChar _ hd2, hexVal?_hexDigitChar _ hd3]
    | some w =>
      right
      obtain ⟨hw, hwc⟩ := hexVal?_some_eq c w hcv
      have hne : w ≠ n / 16 % 16 := by
        intro heq
        apply hc
        rw [show (toHex6 n)[4]? = some (hexDigitChar (n / 16 % 16)) from rfl, ← hwc, heq]
      refine ⟨n / 1048576 % 16 * 1048576 + n / 65536 % 16 * 65536 + n / 4096 % 16 * 4096 +
        n / 256 % 16 * 256 + w * 16 + n % 16, ?_, by omega, by omega⟩
      simp only [toHex6, List.set, fromHex6, hcv, hexVal?_hexDigitChar _ hd0,
        hexVal?_hexDigitChar _ hd1, hexVal?_hexDigitChar _ hd2, hexVal?_hexDigitChar _ hd3,
        hexVal?_hexDigitChar _ hd5]
  · cases hcv : hexVal? c with
    | none =>
      left
      simp only [toHex6, List.set, fromHex6, hcv, hexVal?_hexDigitChar _ hd0,
        hexVal?_hexDigitChar _ hd1, hexVal?_hexDigitChar _ hd2, hexVal?_hexDigitChar _ hd3,
        hexVal?_hexDigitChar _ hd4]
    | some w =>
      right
      obtain ⟨hw, hwc⟩ := hexVal?_some_eq c w hcv
      have hne : w ≠ n % 16 := by
        intro heq
        apply hc
        rw [show (toHex6 n)[5]? = some (hexDigitChar (n % 16)) from rfl, ← hwc, heq]
      refine ⟨n / 1048576 % 16 * 1048576 + n / 65536 % 16 * 65536 + n / 4096 % 16 * 4096 +
        n / 256 % 16 * 256 + n / 16 % 16 * 16 + w, ?_, by omega, by omega⟩
      simp only [toHex6, List.set, fromHex6, hcv, hexVal?_hexDigitChar _ hd0,
        hexVal?_hexDigitChar _ hd1, hexVal?_hexDigitChar _ hd2, hexVal?_hexDigitChar _ hd3,
        hexVal?_hexDigitChar _ hd4]

/-- C4 (spec-modelled): altering any single character of a token produced by
`encrypt` makes `decrypt` fail (return `none`, the model of
`InvalidTokenError`); a tampered token is never silently accepted. -/
theorem decrypt_tamper (key : Nat) (s : String) (i : Nat) (c : Char)
    (hi : i < (encrypt key s).data.length)
    (hc : c ≠ (encrypt key s).data[i]) :
    decrypt key (String.mk ((encrypt key s).data.set i c)) = none := by
  have hcps : ∀ n ∈ s.data.map Char.toNat, n < 16777216 := by
    intro n hn
    rw [List.mem_map] at hn
    obtain ⟨ch, _, rfl⟩ := hn
    exact char_toNat_lt ch
  set cps := s.data.map Char.toNat with hcpsdef
  set cipher := cps.map (fun n => n ^^^ ksOf key) with hcipherdef
  set groups := cipher ++ [macOf key cipher] with hgroupsdef
  set B := groups.map toHex6 with hBdef
  have hdata : (encrypt key s).data = B.flatten := rfl
  have hblocks : ∀ b ∈ B, b.length = 6 := by
    intro b hb
    rw [hBdef, List.mem_map] at hb
    obtain ⟨g, _, rfl⟩ := hb
    exact toHex6_length g
  have hglt : ∀ g ∈ groups, g < 16777216 := by
    intro g hg
    rw [hgroupsdef] at hg
    rcases List.mem_append.mp hg with h | h
    · exact cipher_lt key cps hcps g h
    · simp at h
      subst h
      unfold macOf
      omega
  have hc2 : (encrypt key s).data[i]? ≠ some c := by
    rw [List.getElem?_eq_getElem hi]
    intro h
    injection h with h
    exact hc h.symm
  rw [hdata] at hi hc2 ⊢
  have hflen : B.flatten.length = 6 * B.length := flatten6_length B hblocks
  have hi6 : i < 6 * B.length := by rw [← hflen]; exact hi
  have hjB : i / 6 < B.length := by omega
  have hjg : i / 6 < groups.length := by
    rw [hBdef, List.length_map] at hjB
    exact hjB
  have hr : i % 6 < 6 := Nat.mod_lt _ (by norm_num)
  have hBj : B[i / 6]? = some (toHex6 groups[i / 6]) := by
    rw [hBdef, List.getElem?_map, List.getElem?_eq_getElem hjg]
    rfl
  have hgjlt : groups[i / 6] < 16777216 := hglt _ (List.getElem_mem hjg)
  have htokchar : (toHex6 groups[i / 6])[i % 6]? = B.flatten[i]? := by
    have h1 := flatten6_getElem? B hblocks i
    rw [hBj] at h1
    simpa using h1.symm
  have hnec : (toHex6 groups[i / 6])[i % 6]? ≠ some c := by
    rw [htokchar]
    exact hc2
  rw [flatten6_set B hblocks i c (toHex6 groups[i / 6]) hBj]
  have hblocks' : ∀ b ∈ B.set (i / 6) ((toHex6 groups[i / 6]).set (i % 6) c), b.length = 6 := by
    intro b hb
    rcases List.mem_or_eq_of_mem_set hb with h | h
    · exact hblocks b h
    · rw [h, List.length_set]
      exact toHex6_length _
  unfold decrypt decryptL
  simp only [String.data]
  rw [chunks6_flatten _ hblocks', Option.some_bind]
  rcases fromHex6_set groups[i / 6] hgjlt (i % 6) hr c hnec with hnone | ⟨v', hv', hvne, hvlt⟩
  · rw [parseGroups_set_none B (i / 6) _ hjB hnone]
    rfl
  · have hpgB : parseGroups B = some groups := by
      rw [hBdef]
      exact parseGroups_map_toHex6 groups hglt
    rw [parseGroups_set_some B groups (i / 6) _ v' hpgB hv' hjB, Option.some_bind]
    have hlg : groups.length = cipher.length + 1 := by
      rw [hgroupsdef]
      simp
    by_cases hcase : i / 6 < cipher.length
    · have hset : groups.set (i / 6) v' = cipher.set (i / 6) v' ++ [macOf key cipher] := by
        rw [hgroupsdef]
        exact set_append_left _ _ _ _ hcase
      rw [hset]
      simp only [List.reverse_append, List.reverse_cons, List.reverse_nil, List.nil_append,
        List.singleton_append, List.reverse_reverse]
      have hgjc : groups[i / 6] = cipher[i / 6] := by
        have h1 : groups[i / 6]? = some cipher[i / 6] := by
          rw [hgroupsdef, List.getElem?_append, if_pos hcase, List.getElem?_eq_getElem hcase]
        rw [List.getElem?_eq_getElem hjg] at h1
        injection h1
      have hclt : cipher[i / 6] < 16777216 :=
        cipher_lt key cps hcps _ (List.getElem_mem hcase)
      have hsum := sum_set cipher (i / 6) v' hcase
      have hmacne : macOf key cipher ≠ macOf key (cipher.set (i / 6) v') := by
        unfold macOf
        intro heq
        have : v' = cipher[i / 6] := by omega
        rw [← hgjc] at this
        exact hvne this
      rw [if_neg hmacne]
      rfl
    · have hj_eq : i / 6 = cipher.length := by omega
      have hset : groups.set (i / 6) v' = cipher ++ [v'] := by
        rw [hgroupsdef, hj_eq, show cipher.length = cipher.length + 0 from rfl,
          set_append_right_len]
        rfl
      rw [hset]
      simp only [List.reverse_append, List.reverse_cons, List.reverse_nil, List.nil_append,
        List.singleton_append, List.reverse_reverse]
      have hgjm : groups[i / 6] = macOf key cipher := by
        have h1 : groups[i / 6]? = some (macOf key cipher) := by
          rw [hgroupsdef, List.getElem?_append_right (le_of_eq hj_eq.symm), hj_eq]
          simp
        rw [List.getElem?_eq_getElem hjg] at h1
        injection h1
      have hvne' : v' ≠ macOf key cipher := by
        rw [← hgjm]
        exact hvne
      rw [if_neg hvne']
      rfl

/-! ## Message Codec: wire layer

The test suite (the shipped source of the WebSocket server's behaviour)
serializes every message with `JSON.stringify` and deserializes with
`JSON.parse`.  `Json` is the plain JSON value tree that `JSON.parse`
produces; `JSValue` is the JavaScript runtime value tree that messages are
built from before serialization, which additionally contains `Date` objects
(`date ms`, the instant in milliseconds since the epoch).  `JSON.stringify`
turns a `Date` into its ISO-8601 string (via `Date.prototype.toJSON`);
`JSON.parse` never produces a `Date`.
-/

inductive Json where
  | null : Json
  | bool : Bool → Json
  | num : Int → Json
  | str : String → Json
  | arr : List Json → Json
  | obj : List (String × Json) → Json

inductive JSValue where
  | null : JSValue
  | bool : Bool → JSValue
  | num : Int → JSValue
  | str : String → JSValue
  | date : Int → JSValue
  | arr : List JSValue → JSValue
  | obj : List (String × JSValue) → JSValue

def isWsChar (c : Char) : Bool :=
  c.toNat == 32 || c.toNat == 9 || c.toNat == 10 || c.toNat == 13

def isDigitC (c : Char) : Bool := 48 ≤ c.toNat && c.toNat ≤ 57

def digitChar (d : Nat) : Char := Char.ofNat (48 + d)

def digitVal (c : Char) : Nat := c.toNat - 48

def natCharsAux : Nat → Nat → List Char
  | 0, _ => []
  | f + 1, n => if n = 0 then [] else digitChar (n % 10) :: natCharsAux f (n / 10)

/-- Decimal digits of a natural number, most significant first. -/
def printNat (n : Nat) : List Char := if n = 0 then ['0'] else (natCharsAux n n).reverse

def printInt (n : Int) : List Char :=
  if n < 0 then '-' :: printNat (-n).toNat else printNat n.toNat

/-- JSON string escaping as performed by `JSON.stringify`. -/
def escapeChar (c : Char) : List Char :=
  if c = '"' then ['\\', '"']
  else if c = '\\' then ['\\', '\\']
  else if c = '\n' then ['\\', 'n']
  else if c = '\r' then ['\\', 'r']
  else if c = '\t' then ['\\', 't']
  else if c.toNat = 8 then ['\\', 'b']
  else if c.toNat = 12 then ['\\', 'f']
  else if c.toNat < 32 then
    ['\\', 'u', '0', '0', hexDigitChar (c.toNat / 16), hexDigitChar (c.toNat % 16)]
  else [c]

def printStr (l : List Char) : List Char := '"' :: (l.map escapeChar).flatten ++ ['"']

mutual
def printV : Json → List Char
  | .null => 'n' :: ['u', 'l', 'l']
  | .bool true => 't' :: ['r', 'u', 'e']
  | .bool false => 'f' :: ['a', 'l', 's', 'e']
  | .num n => printInt n
  | .str s => printStr s.data
  | .arr [] => ['[', ']']
  | .arr (x :: xs) => '[' :: (printV x ++ printItemsRest xs) ++ [']']
  | .obj [] => ['\x7b', '\x7d']
  | .obj ((k, v) :: fs) =>
    '\x7b' :: (printStr k.data ++ ':' :: printV v ++ printMembersRest fs) ++ ['\x7d']
def printItemsRest : List Json → List Char
  | [] => []
  | x :: xs => ',' :: printV x ++ printItemsRest xs
def printMembersRest : List (String × Json) → List Char
  | [] => []
  | (k, v) :: fs => ',' :: printStr k.data ++ ':' :: printV v ++ printMembersRest fs
end

/-- `JSON.stringify` on plain JSON trees. -/
def printJson (j : Json) : String := String.mk (printV j)

def skipWs : List Char → List Char
  | [] => []
  | c :: cs => if isWsChar c then skipWs cs else c :: cs

/-- Body of a JSON string literal after the opening quote; returns the
decoded characters and the remainder after the closing quote. -/
def parseStringBody : List Char → Option (List Char × List Char)
  | [] => none
  | '"' :: cs => some ([], cs)
  | '\\' :: '"' :: cs => (parseStringBody cs).map fun p => ('"' :: p.1, p.2)
  | '\\' :: '\\' :: cs => (parseStringBody cs).map fun p => ('\\' :: p.1, p.2)
  | '\\' :: '/' :: cs => (parseStringBody cs).map fun p => ('/' :: p.1, p.2)
  | '\\' :: 'n' :: cs => (parseStringBody cs).map fun p => ('\n' :: p.1, p.2)
  | '\\' :: 'r' :: cs => (parseStringBody cs).map fun p => ('\r' :: p.1, p.2)
  | '\\' :: 't' :: cs => (parseStringBody cs).map fun p => ('\t' :: p.1, p.2)
  | '\\' :: 'b' :: cs => (parseStringBody cs).map fun p => (Char.ofNat 8 :: p.1, p.2)
  | '\\' :: 'f' :: cs => (parseStringBody cs).map fun p => (Char.ofNat 12 :: p.1, p.2)
  | '\\' :: 'u' :: h1 :: h2 :: h3 :: h4 :: cs =>
    match hexVal? h1, hexVal? h2, hexVal? h3, hexVal? h4 with
    | some a, some b, some c2, some d =>
      let code := a * 4096 + b * 256 + c2 * 16 + d
      if code.isValidChar then
        (parseStringBody cs).map fun p => (Char.ofNat code :: p.1, p.2)
      else none
    | _, _, _, _ => none
  | '\\' :: _ => none
  | c :: cs =>
    if c.toNat < 32 then none
    else (parseStringBody cs).map fun p => (c :: p.1, p.2)

def parseNat (cs : List Char) : Option (Nat × List Char) :=
  let ds := cs.takeWhile isDigitC
  if ds.isEmpty then none
  else some (ds.foldl (fun acc c => 10 * acc + digitVal c) 0, cs.dropWhile isDigitC)

mutual
def parseV : Nat → List Char → Option (Json × List Char)
  | 0, _ => none
  | f + 1, cs =>
    match skipWs cs with
    | [] => none
    | c :: cs' =>
      if c = 'n' then
        match cs' with
        | 'u' :: 'l' :: 'l' :: r => some (.null, r)
        | _ => none
      else if c = 't' then
        match cs' with
        | 'r' :: 'u' :: 'e' :: r => some (.bool true, r)
        | _ => none
      else if c = 'f' then
        match cs' with
        | 'a' :: 'l' :: 's' :: 'e' :: r => some (.bool false, r)
        | _ => none
      else if c = '"' then
        (parseStringBody cs').map fun p => (.str (String.mk p.1), p.2)
      else if c = '[' then
        match skipWs cs' with
        | [] => none
        | d :: r =>
          if d = ']' then some (.arr [], r)
          else
            (parseV f (d :: r)).bind fun p =>
              (parseArrRest f p.2).map fun q => (.arr (p.1 :: q.1), q.2)
      else if c = '\x7b' then
        match skipWs cs' with
        | [] => none
        | d :: r =>
          if d = '\x7d' then some (.obj [], r)
          else
            (parseMember f (d :: r)).bind fun p =>
              (parseObjRest f p.2).map fun q => (.obj (p.1 :: q.1), q.2)
      else if c = '-' then
        (parseNat cs').map fun p => (.num (-(p.1 : Int)), p.2)
      else if isDigitC c then
        (parseNat (c :: cs')).map fun p => (.num (p.1 : Int), p.2)
      else none
def parseArrRest : Nat → List Char → Option (List Json × List Char)
  | 0, _ => none
  | f + 1, cs =>
    match skipWs cs with
    | [] => none
    | d :: r =>
      if d = ']' then some ([], r)
      else if d = ',' then
        (parseV f r).bind fun p =>
          (parseArrRest f p.2).map fun q => (p.1 :: q.1, q.2)
      else none
def parseMember : Nat → List Char → Option ((String × Json) × List Char)
  | 0, _ => none
  | f + 1, cs =>
    match skipWs cs with
    | [] => none
    | d :: r =>
      if d = '"' then
        (parseStringBody r).bind fun p =>
          match skipWs p.2 with
          | [] => none
          | d2 :: r2 =>
            if d2 = ':' then
              (parseV f r2).map fun q => ((String.mk p.1, q.1), q.2)
            else none
      else none
def parseObjRest : Nat → List Char → Option (List (String × Json) × List Char)
  | 0, _ => none
  | f + 1, cs =>
    match skipWs cs with
    | [] => none
    | d :: r =>
      if d = '\x7d' then some ([], r)
      else if d = ',' then
        (parseMember f r).bind fun p =>
          (parseObjRest f p.2).map fun q => (p.1 :: q.1, q.2)
      else none
end

/-- `JSON.parse`: `none` models a thrown SyntaxError. -/
def jsonParse (s : String) : Option Json :=
  match parseV (2 * s.length + 2) s.data with
  | some (j, rest) => if skipWs rest = [] then some j else none
  | none => none

/-! ### Printer/parser round trip -/

/-- A continuation that cannot be swallowed by greedy digit consumption. -/
def GoodRest : List Char → Prop
  | [] => True
  | c :: _ => isDigitC c = false

mutual
def jfuel : Json → Nat
  | .null => 1
  | .bool _ => 1
  | .num _ => 1
  | .str _ => 1
  | .arr xs => 1 + jfuelItems xs
  | .obj fs => 1 + jfuelMembers fs
def jfuelItems : List Json → Nat
  | [] => 1
  | x :: xs => 1 + jfuel x + jfuelItems xs
def jfuelMembers : List (String × Json) → Nat
  | [] => 1
  | (_, v) :: fs => 2 + jfuel v + jfuelMembers fs
end

theorem digitVal_digitChar : ∀ d < 10, digitVal (digitChar d) = d := by decide

theorem digitChar_isDigitC : ∀ d < 10, isDigitC (digitChar d) = true := by decide

theorem natCharsAux_digits : ∀ f n c, c ∈ natCharsAux f n → isDigitC c = true := by
  intro f
  induction f with
  | zero => intro n c hc; simp [natCharsAux] at hc
  | succ f ih =>
    intro n c hc
    rw [natCharsAux] at hc
    by_cases hn : n = 0
    · rw [if_pos hn] at hc; simp at hc
    · rw [if_neg hn] at hc
      rcases List.mem_cons.mp hc with h | h
      · rw [h]; exact digitChar_isDigitC _ (Nat.mod_lt _ (by norm_num))
      · exact ih _ c h

theorem printNat_digits (n : Nat) : ∀ c ∈ printNat n, isDigitC c = true := by
  intro c hc
  unfold printNat at hc
  by_cases hn : n = 0
  · rw [if_pos hn] at hc
    simp at hc
    rw [hc]; decide
  · rw [if_neg hn] at hc
    rw [List.mem_reverse] at hc
    exact natCharsAux_digits n n c hc

theorem natCharsAux_ne_nil (f n : Nat) (hn : n ≠ 0) (hf : n ≤ f) : natCharsAux f n ≠ [] := by
  cases f with
  | zero => omega
  | succ f =>
    rw [natCharsAux, if_neg hn]
    simp

theorem printNat_ne_nil (n : Nat) : printNat n ≠ [] := by
  unfold printNat
  by_cases hn : n = 0
  · rw [if_pos hn]; simp
  · rw [if_neg hn]
    simp only [ne_eq, List.reverse_eq_nil_iff]
    exact natCharsAux_ne_nil n n hn le_rfl

def vaLE : List Char → Nat
  | [] => 0
  | c :: cs => digitVal c + 10 * vaLE cs

theorem vaLE_natCharsAux : ∀ f n, n ≤ f → vaLE (natCharsAux f n) = n := by
  intro f
  induction f with
  | zero => intro n h; interval_cases n; rfl
  | succ f ih =>
    intro n h
    rw [natCharsAux]
    by_cases hn : n = 0
    · rw [if_pos hn, hn]; rfl
    · rw [if_neg hn, vaLE, digitVal_digitChar _ (Nat.mod_lt _ (by norm_num)),
        ih (n / 10) (by omega)]
      omega

theorem foldl_rev_vaLE : ∀ (l : List Char) (acc : Nat),
    l.reverse.foldl (fun acc c => 10 * acc + digitVal c) acc = acc * 10 ^ l.length + vaLE l := by
  intro l
  induction l with
  | nil => intro acc; simp [vaLE]
  | cons c cs ih =>
    intro acc
    simp only [List.reverse_cons, List.foldl_append, List.foldl_cons, List.foldl_nil, ih,
      vaLE, List.length_cons]
    ring

theorem takeWhile_append_all (p : Char → Bool) (l r : List Char) (h : ∀ c ∈ l, p c = true) :
    (l ++ r).takeWhile p = l ++ r.takeWhile p := by
  induction l with
  | nil => simp
  | cons c cs ih =>
    simp only [List.cons_append, List.takeWhile_cons, h c (List.mem_cons_self c cs), if_true]
    rw [ih fun x hx => h x (List.mem_cons_of_mem _ hx)]

theorem dropWhile_append_all (p : Char → Bool) (l r : List Char) (h : ∀ c ∈ l, p c = true) :
    (l ++ r).dropWhile p = r.dropWhile p := by
  induction l with
  | nil => simp
  | cons c cs ih =>
    simp only [List.cons_append, List.dropWhile_cons, h c (List.mem_cons_self c cs), if_true]
    rw [ih fun x hx => h x (List.mem_cons_of_mem _ hx)]

theorem takeWhile_goodRest (r : List Char) (h : GoodRest r) : r.takeWhile isDigitC = [] := by
  cases r with
  | nil => rfl
  | cons c cs =>
    unfold GoodRest at h
    simp [List.takeWhile_cons, h]

theorem dropWhile_goodRest (r : List Char) (h : GoodRest r) : r.dropWhile isDigitC = r := by
  cases r with
  | nil => rfl
  | cons c cs =>
    unfold GoodRest at h
    simp [List.dropWhile_cons, h]

theorem parseNat_print (n : Nat) (rest : List Char) (h : GoodRest rest) :
    parseNat (printNat n ++ rest) = some (n, rest) := by
  unfold parseNat
  rw [takeWhile_append_all _ _ _ (printNat_digits n), takeWhile_goodRest rest h,
    List.append_nil, dropWhile_append_all _ _ _ (printNat_digits n), dropWhile_goodRest rest h]
  rw [if_neg (by simp [List.isEmpty_iff, printNat_ne_nil n])]
  congr 1
  unfold printNat
  by_cases hn : n = 0
  · rw [if_pos hn, hn]; rfl
  · rw [if_neg hn]
    ext
    · rw [foldl_rev_vaLE, vaLE_natCharsAux n n le_rfl]
      simp
    · rfl


set_option maxHeartbeats 4000000 in
theorem psb_u (h1 h2 h3 h4 : Char) (cs : List Char) (a b c2 d : Nat)
    (e1 : hexVal? h1 = some a) (e2 : hexVal? h2 = some b)
    (e3 : hexVal? h3 = some c2) (e4 : hexVal? h4 = some d) :
    parseStringBody ('\\' :: 'u' :: h1 :: h2 :: h3 :: h4 :: cs) =
      (if (a * 4096 + b * 256 + c2 * 16 + d).isValidChar then
        (parseStringBody cs).map fun p => (Char.ofNat (a * 4096 + b * 256 + c2 * 16 + d) :: p.1, p.2)
      else none) := by
  simp only [parseStringBody, e1, e2, e3, e4]

set_option maxHeartbeats 4000000 in
theorem psb_default (c : Char) (cs : List Char) (hq : c ≠ '"') (hs : c ≠ '\\') :
    parseStringBody (c :: cs) =
      if c.toNat < 32 then none else (parseStringBody cs).map fun p => (c :: p.1, p.2) := by
  rw [parseStringBody.eq_def]
  split
  <;> first
    | rfl
    | simp_all

theorem psb_roundtrip : ∀ (l : List Char) (rest : List Char),
    parseStringBody ((l.map escapeChar).flatten ++ '"' :: rest) = some (l, rest) := by
  intro l
  induction l with
  | nil =>
    intro rest
    show parseStringBody ('"' :: rest) = some ([], rest)
    rfl
  | cons c cs ih =>
    intro rest
    simp only [List.map_cons, List.flatten_cons, List.append_assoc]
    by_cases h1 : c = '"'
    · subst h1
      rw [show escapeChar '"' = ['\\', '"'] from rfl]
      show (parseStringBody ((cs.map escapeChar).flatten ++ '"' :: rest)).map
          (fun p => ('"' :: p.1, p.2)) = some ('"' :: cs, rest)
      rw [ih]
      rfl
    · by_cases h2 : c = '\\'
      · subst h2
        rw [show escapeChar '\\' = ['\\', '\\'] from rfl]
        show (parseStringBody ((cs.map escapeChar).flatten ++ '"' :: rest)).map
            (fun p => ('\\' :: p.1, p.2)) = some ('\\' :: cs, rest)
        rw [ih]
        rfl
      · by_cases h3 : c = '\n'
        · subst h3
          rw [show escapeChar '\n' = ['\\', 'n'] from rfl]
          show (parseStringBody ((cs.map escapeChar).flatten ++ '"' :: rest)).map
              (fun p => ('\n' :: p.1, p.2)) = some ('\n' :: cs, rest)
          rw [ih]
          rfl
        · by_cases h4 : c = '\x0d'
          · subst h4
            rw [show escapeChar '\x0d' = ['\\', 'r'] from rfl]
            show (parseStringBody ((cs.map escapeChar).flatten ++ '"' :: rest)).map
                (fun p => ('\x0d' :: p.1, p.2)) = some ('\x0d' :: cs, rest)
            rw [ih]
            rfl
          · by_cases h5 : c = '\t'
            · subst h5
              rw [show escapeChar '\t' = ['\\', 't'] from rfl]
              show (parseStringBody ((cs.map escapeChar).flatten ++ '"' :: rest)).map
                  (fun p => ('\t' :: p.1, p.2)) = some ('\t' :: cs, rest)
              rw [ih]
              rfl
            · by_cases h6 : c.toNat = 8
              · have hesc : escapeChar c = ['\\', 'b'] := by
                  unfold escapeChar
                  rw [if_neg h1, if_neg h2, if_neg h3, if_neg h4, if_neg h5, if_pos h6]
                rw [hesc]
                show (parseStringBody ((cs.map escapeChar).flatten ++ '"' :: rest)).map
                    (fun p => (Char.ofNat 8 :: p.1, p.2)) = some (c :: cs, rest)
                rw [ih, show Char.ofNat 8 = c from by rw [← h6, Char.ofNat_toNat]]
                rfl
              · by_cases h7 : c.toNat = 12
                · have hesc : escapeChar c = ['\\', 'f'] := by
                    unfold escapeChar
                    rw [if_neg h1, if_neg h2, if_neg h3, if_neg h4, if_neg h5, if_neg h6,
                      if_pos h7]
                  rw [hesc]
                  show (parseStringBody ((cs.map escapeChar).flatten ++ '"' :: rest)).map
                      (fun p => (Char.ofNat 12 :: p.1, p.2)) = some (c :: cs, rest)
                  rw [ih, show Char.ofNat 12 = c from by rw [← h7, Char.ofNat_toNat]]
                  rfl
                · by_cases h8 : c.toNat < 32
                  · have hesc : escapeChar c =
                        ['\\', 'u', '0', '0', hexDigitChar (c.toNat / 16),
                          hexDigitChar (c.toNat % 16)] := by
                      unfold escapeChar
                      rw [if_neg h1, if_neg h2, if_neg h3, if_neg h4, if_neg h5, if_neg h6,
                        if_neg h7, if_pos h8]
                    rw [hesc]
                    simp only [List.cons_append, List.nil_append]
                    rw [psb_u _ _ _ _ _ 0 0 (c.toNat / 16) (c.toNat % 16) (by decide) (by decide)
                      (hexVal?_hexDigitChar _ (by omega)) (hexVal?_hexDigitChar _ (by omega))]
                    rw [show (0 : Nat) * 4096 + 0 * 256 + c.toNat / 16 * 16 + c.toNat % 16 =
                      c.toNat from by omega]
                    rw [if_pos (Or.inl (by omega) : (c.toNat).isValidChar)]
                    rw [ih, Char.ofNat_toNat]
                    rfl
                  · have hesc : escapeChar c = [c] := by
                      unfold escapeChar
                      rw [if_neg h1, if_neg h2, if_neg h3, if_neg h4, if_neg h5, if_neg h6,
                        if_neg h7, if_neg h8]
                    rw [hesc]
                    simp only [List.cons_append, List.nil_append]
                    rw [psb_default c _ h1 h2, if_neg h8, ih]
                    rfl

theorem skipWs_not_ws (c : Char) (l : List Char) (h : isWsChar c = false) :
    skipWs (c :: l) = c :: l := by
  rw [skipWs, h]
  simp

theorem jfuel_pos (j : Json) : 1 ≤ jfuel j := by
  cases j <;> simp [jfuel]

theorem jfuelItems_pos (xs : List Json) : 1 ≤ jfuelItems xs := by
  cases xs <;> simp [jfuelItems] <;> omega

theorem jfuelMembers_pos (fs : List (String × Json)) : 1 ≤ jfuelMembers fs := by
  cases fs with
  | nil => simp [jfuelMembers]
  | cons kv fs =>
    obtain ⟨k, v⟩ := kv
    simp [jfuelMembers]
    omega

theorem digit_not_special (c : Char) (h : isDigitC c = true) :
    c ≠ 'n' ∧ c ≠ 't' ∧ c ≠ 'f' ∧ c ≠ '"' ∧ c ≠ '[' ∧ c ≠ '\x7b' ∧ c ≠ '-' ∧
      isWsChar c = false := by
  refine ⟨?_, ?_, ?_, ?_, ?_, ?_, ?_, ?_⟩
  · intro heq; rw [heq] at h; exact absurd h (by decide)
  · intro heq; rw [heq] at h; exact absurd h (by decide)
  · intro heq; rw [heq] at h; exact absurd h (by decide)
  · intro heq; rw [heq] at h; exact absurd h (by decide)
  · intro heq; rw [heq] at h; exact absurd h (by decide)
  · intro heq; rw [heq] at h; exact absurd h (by decide)
  · intro heq; rw [heq] at h; exact absurd h (by decide)
  · unfold isDigitC at h
    unfold isWsChar
    simp at h ⊢
    omega

theorem printV_head (j : Json) : ∃ c t, printV j = c :: t ∧ isWsChar c = false ∧
    c ≠ ']' ∧ c ≠ '\x7d' := by
  cases j with
  | null => exact ⟨'n', _, rfl, by decide, by decide, by decide⟩
  | bool b =>
    cases b
    · exact ⟨'f', _, rfl, by decide, by decide, by decide⟩
    · exact ⟨'t', _, rfl, by decide, by decide, by decide⟩
  | num n =>
    by_cases hn : n < 0
    · refine ⟨'-', printNat (-n).toNat, ?_, by decide, by decide, by decide⟩
      show printInt n = _
      rw [printInt, if_pos hn]
    · obtain ⟨c, t, hct⟩ := List.exists_cons_of_ne_nil (printNat_ne_nil n.toNat)
      have hd : isDigitC c = true :=
        printNat_digits _ c (by rw [hct]; exact List.mem_cons_self c t)
      refine ⟨c, t, ?_, ?_, ?_, ?_⟩
      · show printInt n = _
        rw [printInt, if_neg hn, hct]
      · exact (digit_not_special c hd).2.2.2.2.2.2.2
      · intro heq; rw [heq] at hd; exact absurd hd (by decide)
      · intro heq; rw [heq] at hd; exact absurd hd (by decide)
  | str s => exact ⟨'"', _, rfl, by decide, by decide, by decide⟩
  | arr xs =>
    cases xs with
    | nil => exact ⟨'[', _, rfl, by decide, by decide, by decide⟩
    | cons x xs => exact ⟨'[', _, rfl, by decide, by decide, by decide⟩
  | obj fs =>
    cases fs with
    | nil => exact ⟨'\x7b', _, rfl, by decide, by decide, by decide⟩
    | cons kv fs =>
      obtain ⟨k, v⟩ := kv
      exact ⟨'\x7b', _, rfl, by decide, by decide, by decide⟩

theorem goodRest_items (xs : List Json) (rest : List Char) :
    GoodRest (printItemsRest xs ++ (']' :: rest)) := by
  cases xs with
  | nil => exact (by decide : isDigitC ']' = false)
  | cons x xs => exact (by decide : isDigitC ',' = false)

theorem goodRest_members (fs : List (String × Json)) (rest : List Char) :
    GoodRest (printMembersRest fs ++ ('\x7d' :: rest)) := by
  cases fs with
  | nil => exact (by decide : isDigitC '\x7d' = false)
  | cons kv fs =>
    obtain ⟨k, v⟩ := kv
    exact (by decide : isDigitC ',' = false)

theorem parseV_null (f : Nat) (r : List Char) :
    parseV (f + 1) ('n' :: 'u' :: 'l' :: 'l' :: r) = some (.null, r) := rfl

theorem parseV_true (f : Nat) (r : List Char) :
    parseV (f + 1) ('t' :: 'r' :: 'u' :: 'e' :: r) = some (.bool true, r) := rfl

theorem parseV_false (f : Nat) (r : List Char) :
    parseV (f + 1) ('f' :: 'a' :: 'l' :: 's' :: 'e' :: r) = some (.bool false, r) := rfl

theorem parseV_quote (f : Nat) (cs' : List Char) :
    parseV (f + 1) ('"' :: cs') =
      (parseStringBody cs').map fun p => (.str (String.mk p.1), p.2) := rfl

theorem parseV_arrnil (f : Nat) (r : List Char) :
    parseV (f + 1) ('[' :: (']' :: r)) = some (.arr [], r) := rfl

theorem parseV_objnil (f : Nat) (r : List Char) :
    parseV (f + 1) ('\x7b' :: ('\x7d' :: r)) = some (.obj [], r) := rfl

theorem parseV_minus (f : Nat) (cs' : List Char) :
    parseV (f + 1) ('-' :: cs') =
      (parseNat cs').map fun p => (.num (-(p.1 : Int)), p.2) := rfl

theorem parseV_lbrack_cons (f : Nat) (d : Char) (r : List Char)
    (hws : isWsChar d = false) (hne : d ≠ ']') :
    parseV (f + 1) ('[' :: (d :: r)) =
      (parseV f (d :: r)).bind fun p =>
        (parseArrRest f p.2).map fun q => (.arr (p.1 :: q.1), q.2) := by
  simp only [parseV, show ∀ l : List Char, skipWs ('[' :: l) = '[' :: l from fun _ => rfl,
    skipWs_not_ws d r hws]
  simp [hne]

theorem parseV_lbrace_cons (f : Nat) (d : Char) (r : List Char)
    (hws : isWsChar d = false) (hne : d ≠ '\x7d') :
    parseV (f + 1) ('\x7b' :: (d :: r)) =
      (parseMember f (d :: r)).bind fun p =>
        (parseObjRest f p.2).map fun q => (.obj (p.1 :: q.1), q.2) := by
  simp only [parseV, show ∀ l : List Char, skipWs ('\x7b' :: l) = '\x7b' :: l from fun _ => rfl,
    skipWs_not_ws d r hws]
  simp [hne]

theorem parseV_digit (f : Nat) (c : Char) (cs : List Char) (hd : isDigitC c = true) :
    parseV (f + 1) (c :: cs) = (parseNat (c :: cs)).map fun p => (.num (p.1 : Int), p.2) := by
  obtain ⟨hn, ht, hf, hq, hb, hl, hm, hws⟩ := digit_not_special c hd
  simp only [parseV, skipWs_not_ws c cs hws]
  simp [hn, ht, hf, hq, hb, hl, hm, hd]

theorem parseAR_rbrack (f : Nat) (r : List Char) :
    parseArrRest (f + 1) (']' :: r) = some ([], r) := rfl

theorem parseAR_comma (f : Nat) (r : List Char) :
    parseArrRest (f + 1) (',' :: r) =
      (parseV f r).bind fun p =>
        (parseArrRest f p.2).map fun q => (p.1 :: q.1, q.2) := rfl

theorem parseOR_rbrace (f : Nat) (r : List Char) :
    parseObjRest (f + 1) ('\x7d' :: r) = some ([], r) := rfl

theorem parseOR_comma (f : Nat) (r : List Char) :
    parseObjRest (f + 1) (',' :: r) =
      (parseMember f r).bind fun p =>
        (parseObjRest f p.2).map fun q => (p.1 :: q.1, q.2) := rfl

theorem parseMember_print (f : Nat) (k : String) (v : Json) (rest : List Char) :
    parseMember (f + 1) (printStr k.data ++ (':' :: (printV v ++ rest))) =
      (parseV f (printV v ++ rest)).map fun q => ((k, q.1), q.2) := by
  have hshape : printStr k.data ++ (':' :: (printV v ++ rest)) =
      '"' :: ((k.data.map escapeChar).flatten ++ ('"' :: (':' :: (printV v ++ rest)))) := by
    simp [printStr, List.cons_append, List.append_assoc]
  rw [hshape]
  simp only [parseMember, show ∀ l : List Char, skipWs ('"' :: l) = '"' :: l from fun _ => rfl]
  simp only [reduceIte]
  rw [psb_roundtrip]
  simp only [Option.some_bind,
    show ∀ l : List Char, skipWs (':' :: l) = ':' :: l from fun _ => rfl]
  simp

theorem parse_print_rt : ∀ f : Nat,
    (∀ (j : Json) (rest : List Char), jfuel j ≤ f → GoodRest rest →
      parseV f (printV j ++ rest) = some (j, rest)) ∧
    (∀ (xs : List Json) (rest : List Char), jfuelItems xs ≤ f →
      parseArrRest f (printItemsRest xs ++ (']' :: rest)) = some (xs, rest)) ∧
    (∀ (fs : List (String × Json)) (rest : List Char), jfuelMembers fs ≤ f →
      parseObjRest f (printMembersRest fs ++ ('\x7d' :: rest)) = some (fs, rest)) := by
  intro f
  induction f using Nat.strong_induction_on with
  | _ f ih =>
  refine ⟨?_, ?_, ?_⟩
  · intro j rest hfu hgr
    cases f with
    | zero => exact absurd (le_trans (jfuel_pos j) hfu) (by omega)
    | succ f' =>
      have hlt : f' < f' + 1 := by omega
      cases j with
      | null => exact parseV_null f' rest
      | bool b =>
        cases b
        · exact parseV_false f' rest
        · exact parseV_true f' rest
      | num n =>
        by_cases hn : n < 0
        · have hpv : printV (.num n) = '-' :: printNat (-n).toNat := by
            show printInt n = _
            rw [printInt, if_pos hn]
          rw [hpv]
          simp only [List.cons_append]
          rw [parseV_minus f' _, parseNat_print _ rest hgr]
          simp only [Option.map_some']
          have h2 : (-(((-n).toNat : Int))) = n := by omega
          rw [h2]
        · have hpv : printV (.num n) = printNat n.toNat := by
            show printInt n = _
            rw [printInt, if_neg hn]
          obtain ⟨c, t, hct⟩ := List.exists_cons_of_ne_nil (printNat_ne_nil n.toNat)
          have hd : isDigitC c = true :=
            printNat_digits _ c (by rw [hct]; exact List.mem_cons_self c t)
          rw [hpv, hct]
          simp only [List.cons_append]
          rw [parseV_digit f' c _ hd,
            show (c :: (t ++ rest)) = (c :: t) ++ rest from rfl, ← hct,
            parseNat_print _ rest hgr]
          simp only [Option.map_some']
          have h2 : ((n.toNat : Int)) = n := by omega
          rw [h2]
      | str s =>
        have hpv : printV (.str s) ++ rest =
            '"' :: ((s.data.map escapeChar).flatten ++ ('"' :: rest)) := by
          show printStr s.data ++ rest = _
          simp [printStr, List.cons_append, List.append_assoc]
        rw [hpv, parseV_quote, psb_roundtrip]
        rfl
      | arr xs =>
        cases xs with
        | nil => exact parseV_arrnil f' rest
        | cons x xs =>
          have hx : jfuel x ≤ f' := by
            rw [jfuel, jfuelItems] at hfu
            have := jfuelItems_pos xs
            omega
          have hxs : jfuelItems xs ≤ f' := by
            rw [jfuel, jfuelItems] at hfu
            have := jfuel_pos x
            omega
          have hpv : printV (.arr (x :: xs)) ++ rest =
              '[' :: (printV x ++ (printItemsRest xs ++ (']' :: rest))) := by
            show ('[' :: (printV x ++ printItemsRest xs) ++ [']']) ++ rest = _
            simp [List.cons_append, List.append_assoc]
          rw [hpv]
          obtain ⟨c0, t0, hct0, hws0, hnb0, hnc0⟩ := printV_head x
          rw [hct0]
          simp only [List.cons_append]
          rw [parseV_lbrack_cons f' c0 _ hws0 hnb0,
            show c0 :: (t0 ++ (printItemsRest xs ++ (']' :: rest))) =
              printV x ++ (printItemsRest xs ++ (']' :: rest)) from by rw [hct0]; rfl,
            (ih f' hlt).1 x _ hx (goodRest_items xs rest)]
          simp only [Option.some_bind]
          rw [(ih f' hlt).2.1 xs rest hxs]
          rfl
      | obj fs =>
        cases fs with
        | nil => exact parseV_objnil f' rest
        | cons kv fs =>
          obtain ⟨k, v⟩ := kv
          have hfu' : 2 + jfuel v + jfuelMembers fs ≤ f' := by
            rw [jfuel, jfuelMembers] at hfu
            omega
          obtain ⟨f'', rfl⟩ : ∃ f'', f' = f'' + 1 := by
            have := jfuelMembers_pos fs
            have := jfuel_pos v
            exact ⟨f' - 1, by omega⟩
          have hv : jfuel v ≤ f'' := by
            have := jfuelMembers_pos fs
            omega
          have hfs : jfuelMembers fs ≤ f'' + 1 := by
            have := jfuel_pos v
            omega
          have hpv : printV (.obj ((k, v) :: fs)) ++ rest =
              '\x7b' :: (printStr k.data ++
                (':' :: (printV v ++ (printMembersRest fs ++ ('\x7d' :: rest))))) := by
            show ('\x7b' :: (printStr k.data ++ ':' :: printV v ++ printMembersRest fs) ++
              ['\x7d']) ++ rest = _
            simp [List.cons_append, List.append_assoc]
          rw [hpv]
          have hps : printStr k.data = '"' :: ((k.data.map escapeChar).flatten ++ ['"']) := rfl
          rw [hps]
          simp only [List.cons_append]
          rw [parseV_lbrace_cons (f'' + 1) '"' _ (by decide) (by decide),
            show '"' :: (((k.data.map escapeChar).flatten ++ ['"']) ++
                (':' :: (printV v ++ (printMembersRest fs ++ ('\x7d' :: rest))))) =
              printStr k.data ++
                (':' :: (printV v ++ (printMembersRest fs ++ ('\x7d' :: rest)))) from by
              rw [hps]; simp [List.cons_append, List.append_assoc],
            parseMember_print f'' k v _,
            (ih f'' (by omega)).1 v _ hv (goodRest_members fs rest)]
          simp only [Option.map_some', Option.some_bind]
          rw [(ih (f'' + 1) hlt).2.2 fs rest hfs]
          rfl
  · intro xs rest hfu
    cases f with
    | zero => exact absurd (le_trans (jfuelItems_pos xs) hfu) (by omega)
    | succ f' =>
      have hlt : f' < f' + 1 := by omega
      cases xs with
      | nil => exact parseAR_rbrack f' rest
      | cons x xs =>
        have hx : jfuel x ≤ f' := by
          rw [jfuelItems] at hfu
          have := jfuelItems_pos xs
          omega
        have hxs : jfuelItems xs ≤ f' := by
          rw [jfuelItems] at hfu
          have := jfuel_pos x
          omega
        show parseArrRest (f' + 1)
          ((',' :: (printV x ++ printItemsRest xs)) ++ (']' :: rest)) = _
        simp only [List.cons_append]
        rw [parseAR_comma f' _,
          show printV x ++ printItemsRest xs ++ (']' :: rest) =
            printV x ++ (printItemsRest xs ++ (']' :: rest)) from by
            simp [List.append_assoc],
          (ih f' hlt).1 x _ hx (goodRest_items xs rest)]
        simp only [Option.some_bind]
        rw [(ih f' hlt).2.1 xs rest hxs]
        rfl
  · intro fs rest hfu
    cases f with
    | zero => exact absurd (le_trans (jfuelMembers_pos fs) hfu) (by omega)
    | succ f' =>
      have hlt : f' < f' + 1 := by omega
      cases fs with
      | nil => exact parseOR_rbrace f' rest
      | cons kv fs =>
        obtain ⟨k, v⟩ := kv
        have hfu' : 1 + jfuel v + jfuelMembers fs ≤ f' := by
          rw [jfuelMembers] at hfu
          omega
        obtain ⟨f'', rfl⟩ : ∃ f'', f' = f'' + 1 := by
          have := jfuelMembers_pos fs
          have := jfuel_pos v
          exact ⟨f' - 1, by omega⟩
        have hv : jfuel v ≤ f'' := by
          have := jfuelMembers_pos fs
          omega
        have hfs : jfuelMembers fs ≤ f'' + 1 := by
          have := jfuel_pos v
          omega
        show parseObjRest (f'' + 1 + 1)
          ((',' :: (printStr k.data ++ ':' :: printV v ++ printMembersRest fs)) ++
            ('\x7d' :: rest)) = _
        simp only [List.cons_append]
        rw [parseOR_comma (f'' + 1) _,
          show printStr k.data ++ ':' :: printV v ++ printMembersRest fs ++ ('\x7d' :: rest) =
            printStr k.data ++
              (':' :: (printV v ++ (printMembersRest fs ++ ('\x7d' :: rest)))) from by
            simp [List.cons_append, List.append_assoc],
          parseMember_print f'' k v _,
          (ih f'' (by omega)).1 v _ hv (goodRest_members fs rest)]
        simp only [Option.map_some', Option.some_bind]
        rw [(ih (f'' + 1) hlt).2.2 fs rest hfs]
        rfl

theorem printNat_length_pos (n : Nat) : 0 < (printNat n).length :=
  List.length_pos.mpr (printNat_ne_nil n)

theorem printInt_length_pos (n : Int) : 0 < (printInt n).length := by
  unfold printInt
  split_ifs
  · simp
  · exact printNat_length_pos _

mutual
theorem jfuel_le : ∀ j : Json, jfuel j ≤ 2 * (printV j).length
  | .null => by simp [jfuel, printV]
  | .bool true => by simp [jfuel, printV]
  | .bool false => by simp [jfuel, printV]
  | .num n => by
    have := printInt_length_pos n
    show jfuel (.num n) ≤ 2 * (printInt n).length
    rw [jfuel]
    omega
  | .str s => by
    show jfuel (.str s) ≤ 2 * (printStr s.data).length
    rw [jfuel]
    simp [printStr]
    omega
  | .arr [] => by simp [jfuel, jfuelItems, printV]
  | .arr (x :: xs) => by
    have h1 := jfuel_le x
    have h2 := jfuelItems_le xs
    rw [jfuel, jfuelItems]
    show _ ≤ 2 * (('[' :: (printV x ++ printItemsRest xs) ++ [']'])).length
    simp only [List.length_append, List.length_cons, List.cons_append]
    simp at h1 h2 ⊢
    omega
  | .obj [] => by simp [jfuel, jfuelMembers, printV]
  | .obj ((k, v) :: fs) => by
    have h1 := jfuel_le v
    have h2 := jfuelMembers_le fs
    rw [jfuel, jfuelMembers]
    show _ ≤ 2 * (('\x7b' :: (printStr k.data ++ ':' :: printV v ++ printMembersRest fs) ++
      ['\x7d'])).length
    simp only [List.length_append, List.length_cons, List.cons_append, printStr]
    simp at h1 h2 ⊢
    omega
theorem jfuelItems_le : ∀ xs : List Json, jfuelItems xs ≤ 2 * (printItemsRest xs).length + 2
  | [] => by simp [jfuelItems, printItemsRest]
  | x :: xs => by
    have h1 := jfuel_le x
    have h2 := jfuelItems_le xs
    rw [jfuelItems, printItemsRest]
    simp only [List.length_append, List.length_cons]
    omega
theorem jfuelMembers_le :
    ∀ fs : List (String × Json), jfuelMembers fs ≤ 2 * (printMembersRest fs).length + 2
  | [] => by simp [jfuelMembers, printMembersRest]
  | (k, v) :: fs => by
    have h1 := jfuel_le v
    have h2 := jfuelMembers_le fs
    rw [jfuelMembers, printMembersRest]
    simp only [List.length_append, List.length_cons]
    omega
end

/-- The codec round-trips at the JSON-tree level: parsing a printed tree
gives back exactly that tree. -/
theorem jsonParse_printJson (j : Json) : jsonParse (printJson j) = some j := by
  unfold jsonParse printJson
  have hlen : (String.mk (printV j)).length = (printV j).length := rfl
  rw [hlen]
  have hfu : jfuel j ≤ 2 * (printV j).length + 2 := by
    have := jfuel_le j
    omega
  have h1 : parseV (2 * (printV j).length + 2) (printV j ++ []) = some (j, []) :=
    (parse_print_rt _).1 j [] hfu trivial
  rw [List.append_nil] at h1
  show (match parseV (2 * (printV j).length + 2) (printV j) with
    | some (j, rest) => if skipWs rest = [] then some j else none
    | none => none) = some j
  rw [h1]
  rfl

/-! ### JavaScript runtime values and `Date` serialization -/

/-- `Date.prototype.toISOString` for an instant given in milliseconds since
the Unix epoch: `YYYY-MM-DDTHH:mm:ss.sssZ` (proleptic Gregorian, UTC). -/
def isoOfMs (ms : Int) : String :=
  let days : Int := Int.ediv ms 86400000
  let msod : Nat := (Int.emod ms 86400000).toNat
  let z : Int := days + 719468
  let era : Int := Int.ediv z 146097
  let doe : Nat := (z - era * 146097).toNat
  let yoe : Nat := (doe - doe / 1460 + doe / 36524 - doe / 146096) / 365
  let y : Int := (yoe : Int) + era * 400
  let doy : Nat := doe - (365 * yoe + yoe / 4 - yoe / 100)
  let mp : Nat := (5 * doy + 2) / 153
  let d : Nat := doy - (153 * mp + 2) / 5 + 1
  let m : Nat := if mp < 10 then mp + 3 else mp - 9
  let y' : Int := if m ≤ 2 then y + 1 else y
  let pad2 : Nat → List Char := fun n => if n < 10 then '0' :: printNat n else printNat n
  let pad3 : Nat → List Char := fun n =>
    if n < 10 then '0' :: '0' :: printNat n
    else if n < 100 then '0' :: printNat n
    else printNat n
  let pad4 : Nat → List Char := fun n =>
    if n < 10 then '0' :: '0' :: '0' :: printNat n
    else if n < 100 then '0' :: '0' :: printNat n
    else if n < 1000 then '0' :: printNat n
    else printNat n
  let ys : List Char := if y' < 0 then '-' :: pad4 (-y').toNat else pad4 y'.toNat
  String.mk (ys ++ '-' :: pad2 m ++ '-' :: pad2 d ++ 'T' :: pad2 (msod / 3600000) ++
    ':' :: pad2 (msod / 60000 % 60) ++ ':' :: pad2 (msod / 1000 % 60) ++
    '.' :: pad3 (msod % 1000) ++ ['Z'])

mutual
def jsToJson : JSValue → Json
  | .null => .null
  | .bool b => .bool b
  | .num n => .num n
  | .str s => .str s
  | .date ms => .str (isoOfMs ms)
  | .arr xs => .arr (jsToJsonList xs)
  | .obj fs => .obj (jsToJsonFields fs)
def jsToJsonList : List JSValue → List Json
  | [] => []
  | x :: xs => jsToJson x :: jsToJsonList xs
def jsToJsonFields : List (String × JSValue) → List (String × Json)
  | [] => []
  | (k, v) :: fs => (k, jsToJson v) :: jsToJsonFields fs
end

mutual
def jsonToJS : Json → JSValue
  | .null => .null
  | .bool b => .bool b
  | .num n => .num n
  | .str s => .str s
  | .arr xs => .arr (jsonToJSList xs)
  | .obj fs => .obj (jsonToJSFields fs)
def jsonToJSList : List Json → List JSValue
  | [] => []
  | x :: xs => jsonToJS x :: jsonToJSList xs
def jsonToJSFields : List (String × Json) → List (String × JSValue)
  | [] => []
  | (k, v) :: fs => (k, jsonToJS v) :: jsonToJSFields fs
end

/-- `JSON.stringify` on runtime values (`Date` fields become ISO strings). -/
def stringifyJS (v : JSValue) : String := printJson (jsToJson v)

/-- The full wire round trip a message value undergoes:
`JSON.parse(JSON.stringify(v))`, as exercised by the test suite. -/
def roundTripJS (v : JSValue) : Option JSValue := (jsonParse (stringifyJS v)).map jsonToJS

theorem roundTripJS_eq (v : JSValue) : roundTripJS v = some (jsonToJS (jsToJson v)) := by
  unfold roundTripJS stringifyJS
  rw [jsonParse_printJson]
  rfl

/-! ## Message schema (from src/types/ws-events.d.ts and the tournaments
type declarations accompanying src/lib/db/migrations/schema.ts) -/

inductive Result where
  | r01 : Result
  | r10 : Result
  | rHalf : Result
deriving DecidableEq

def Result.toWire : Result → String
  | .r01 => "0-1"
  | .r10 => "1-0"
  | .rHalf => "1/2-1/2"

inductive RoundName where
  | final : RoundName
  | matchForThird : RoundName
  | semifinal : RoundName
  | quarterfinal : RoundName
  | r8 : RoundName
  | r16 : RoundName
  | r32 : RoundName
  | r64 : RoundName
  | r128 : RoundName
deriving DecidableEq

def RoundName.toWire : RoundName → String
  | .final => "final"
  | .matchForThird => "match_for_third"
  | .semifinal => "semifinal"
  | .quarterfinal => "quarterfinal"
  | .r8 => "1/8"
  | .r16 => "1/16"
  | .r32 => "1/32"
  | .r64 => "1/64"
  | .r128 => "1/128"

structure PlayerModel where
  id : String
  nickname : String
  realname : Option String
  rating : Option Int
  wins : Int
  draws : Int
  losses : Int
  color_index : Int
  exited : Option Bool
  place : Option Int
deriving DecidableEq

structure GameModel where
  id : String
  black_id : String
  white_id : String
  black_nickname : String
  white_nickname : String
  black_prev_game_id : Option String
  white_prev_game_id : Option String
  round_number : Int
  round_name : Option RoundName
  game_number : Int
  result : Option Result
deriving DecidableEq

/-- The `DashboardMessage` union of ws-events.d.ts.  `Date`-typed fields
(`started_at`, `closed_at`) are instants in milliseconds since the epoch. -/
inductive DashboardMessage where
  | addExistingPlayer (body : PlayerModel)
  | addNewPlayer (body : PlayerModel)
  | removePlayer (id : String)
  | setGameResult (gameId : String) (result : Result) (roundNumber : Int)
  | startTournament (started_at : Int) (rounds_number : Int)
  | resetTournament
  | newRound (roundNumber : Int) (newGames : List GameModel) (isTournamentGoing : Bool)
  | finishTournament (closed_at : Int)
  | deleteTournament
  | error (message : String)
deriving DecidableEq

/-- The `GlobalMessage` union of ws-events.d.ts. -/
inductive GlobalMessage where
  | userNotification (recipientId : String)
  | removedFromClub (clubId : String) (recipientId : String)
  | error (recipientId : String) (message : String)
deriving DecidableEq

/-- `Message = DashboardMessage | GlobalMessage`. -/
inductive Message where
  | dash (m : DashboardMessage)
  | glob (m : GlobalMessage)
deriving DecidableEq

def optStrJS : Option String → JSValue
  | none => .null
  | some s => .str s

def optIntJS : Option Int → JSValue
  | none => .null
  | some n => .num n

def optBoolJS : Option Bool → JSValue
  | none => .null
  | some b => .bool b

def optResultJS : Option Result → JSValue
  | none => .null
  | some r => .str r.toWire

def optRoundNameJS : Option RoundName → JSValue
  | none => .null
  | some r => .str r.toWire

/-- The runtime object a `PlayerModel` is on the JavaScript side (field
order as declared in the interface). -/
def jsOfPlayer (p : PlayerModel) : JSValue :=
  .obj [("id", .str p.id), ("nickname", .str p.nickname), ("realname", optStrJS p.realname),
    ("rating", optIntJS p.rating), ("wins", .num p.wins), ("draws", .num p.draws),
    ("losses", .num p.losses), ("color_index", .num p.color_index),
    ("exited", optBoolJS p.exited), ("place", optIntJS p.place)]

def jsOfGame (g : GameModel) : JSValue :=
  .obj [("id", .str g.id), ("black_id", .str g.black_id), ("white_id", .str g.white_id),
    ("black_nickname", .str g.black_nickname), ("white_nickname", .str g.white_nickname),
    ("black_prev_game_id", optStrJS g.black_prev_game_id),
    ("white_prev_game_id", optStrJS g.white_prev_game_id),
    ("round_number", .num g.round_number), ("round_name", optRoundNameJS g.round_name),
    ("game_number", .num g.game_number), ("result", optResultJS g.result)]

/-- The runtime object each `DashboardMessage` variant is, with wire shape
exactly as the type union declares: the two player-add variants nest their
payload under `body`, every other variant is flat. -/
def jsOfDashboard : DashboardMessage → JSValue
  | .addExistingPlayer p => .obj [("type", .str "add-existing-player"), ("body", jsOfPlayer p)]
  | .addNewPlayer p => .obj [("type", .str "add-new-player"), ("body", jsOfPlayer p)]
  | .removePlayer i => .obj [("type", .str "remove-player"), ("id", .str i)]
  | .setGameResult g r n =>
    .obj [("type", .str "set-game-result"), ("gameId", .str g), ("result", .str r.toWire),
      ("roundNumber", .num n)]
  | .startTournament sa rn =>
    .obj [("type", .str "start-tournament"), ("started_at", .date sa),
      ("rounds_number", .num rn)]
  | .resetTournament => .obj [("type", .str "reset-tournament")]
  | .newRound rn gs going =>
    .obj [("type", .str "new-round"), ("roundNumber", .num rn),
      ("newGames", .arr (gs.map jsOfGame)), ("isTournamentGoing", .bool going)]
  | .finishTournament ca => .obj [("type", .str "finish-tournament"), ("closed_at", .date ca)]
  | .deleteTournament => .obj [("type", .str "delete-tournament")]
  | .error msg => .obj [("type", .str "error"), ("message", .str msg)]

def jsOfGlobal : GlobalMessage → JSValue
  | .userNotification rid => .obj [("type", .str "user_notification"), ("recipientId", .str rid)]
  | .removedFromClub cid rid =>
    .obj [("type", .str "removed_from_club"), ("clubId", .str cid), ("recipientId", .str rid)]
  | .error rid msg =>
    .obj [("recipientId", .str rid), ("type", .str "error"), ("message", .str msg)]

def jsOfMsg : Message → JSValue
  | .dash m => jsOfDashboard m
  | .glob m => jsOfGlobal m

/-- `JSON.stringify` of a message value, as the server does before sending. -/
def encodeMsg (m : Message) : String := stringifyJS (jsOfMsg m)

/-- True for the message variants carrying no `Date`-valued field. -/
def dateFree : Message → Bool
  | .dash (.startTournament _ _) => false
  | .dash (.finishTournament _) => false
  | _ => true

mutual
def noDate : JSValue → Bool
  | .null => true
  | .bool _ => true
  | .num _ => true
  | .str _ => true
  | .date _ => false
  | .arr xs => noDateList xs
  | .obj fs => noDateFields fs
def noDateList : List JSValue → Bool
  | [] => true
  | x :: xs => noDate x && noDateList xs
def noDateFields : List (String × JSValue) → Bool
  | [] => true
  | (_, v) :: fs => noDate v && noDateFields fs
end

mutual
theorem jsonToJS_jsToJson : ∀ v : JSValue, noDate v = true → jsonToJS (jsToJson v) = v
  | .null, _ => rfl
  | .bool _, _ => rfl
  | .num _, _ => rfl
  | .str _, _ => rfl
  | .date _, h => absurd h (by simp [noDate])
  | .arr xs, h => by
    show JSValue.arr (jsonToJSList (jsToJsonList xs)) = JSValue.arr xs
    rw [jsonToJSList_rt xs (by simpa [noDate] using h)]
  | .obj fs, h => by
    show JSValue.obj (jsonToJSFields (jsToJsonFields fs)) = JSValue.obj fs
    rw [jsonToJSFields_rt fs (by simpa [noDate] using h)]
theorem jsonToJSList_rt : ∀ xs : List JSValue, noDateList xs = true →
    jsonToJSList (jsToJsonList xs) = xs
  | [], _ => rfl
  | x :: xs, h => by
    rw [noDateList, Bool.and_eq_true] at h
    show jsonToJS (jsToJson x) :: jsonToJSList (jsToJsonList xs) = x :: xs
    rw [jsonToJS_jsToJson x h.1, jsonToJSList_rt xs h.2]
theorem jsonToJSFields_rt : ∀ fs : List (String × JSValue), noDateFields fs = true →
    jsonToJSFields (jsToJsonFields fs) = fs
  | [], _ => rfl
  | (k, v) :: fs, h => by
    rw [noDateFields, Bool.and_eq_true] at h
    show (k, jsonToJS (jsToJson v)) :: jsonToJSFields (jsToJsonFields fs) = (k, v) :: fs
    rw [jsonToJS_jsToJson v h.1, jsonToJSFields_rt fs h.2]
end

theorem noDate_player (p : PlayerModel) : noDate (jsOfPlayer p) = true := by
  obtain ⟨i, ni, rn, ra, w, d, l, ci, ex, pl⟩ := p
  cases rn <;> cases ra <;> cases ex <;> cases pl <;> rfl

theorem noDate_game (g : GameModel) : noDate (jsOfGame g) = true := by
  obtain ⟨i, bi, wi, bn, wn, bp, wp, rn, rna, gn, res⟩ := g
  cases bp <;> cases wp <;> cases rna <;> cases res <;> rfl

theorem noDate_games (gs : List GameModel) : noDateList (gs.map jsOfGame) = true := by
  induction gs with
  | nil => rfl
  | cons g gs ih =>
    rw [List.map_cons, noDateList, Bool.and_eq_true]
    exact ⟨noDate_game g, ih⟩

theorem noDate_msg (m : Message) (h : dateFree m = true) : noDate (jsOfMsg m) = true := by
  cases m with
  | dash dm =>
    cases dm with
    | addExistingPlayer p =>
      show noDate (jsOfPlayer p) && true = true
      rw [noDate_player p]
      rfl
    | addNewPlayer p =>
      show noDate (jsOfPlayer p) && true = true
      rw [noDate_player p]
      rfl
    | removePlayer i => rfl
    | setGameResult g r n => rfl
    | startTournament sa rn => exact absurd h (by simp [dateFree])
    | resetTournament => rfl
    | newRound rn gs going =>
      simp [jsOfMsg, jsOfDashboard, noDate, noDateFields, noDate_games]
    | finishTournament ca => exact absurd h (by simp [dateFree])
    | deleteTournament => rfl
    | error msg => rfl
  | glob gm => cases gm <;> rfl

/-- C3, counterexample: for the `finish-tournament` message of the test
suite (closed_at = 2024-01-01T12:00:00Z), `JSON.parse(JSON.stringify(m))`
is not structurally equal to `m`: the `Date` comes back as an ISO string. -/
theorem finishTournament_roundtrip_not_structural :
    roundTripJS (jsOfMsg (.dash (.finishTournament 1704110400000))) ≠
      some (jsOfMsg (.dash (.finishTournament 1704110400000))) := by
  have h1 : roundTripJS (jsOfMsg (.dash (.finishTournament 1704110400000))) =
      some (.obj [("type", .str "finish-tournament"),
        ("closed_at", .str "2024-01-01T12:00:00.000Z")]) := rfl
  rw [h1]
  intro h
  simp [jsOfMsg, jsOfDashboard] at h

/-- C3 (amended): `decode(encode(m))` is structurally equal to `m` for every
message value without `Date`-valued fields; `Date` fields are the only
exception (they serialize to the ISO string of the same instant, which
`decode` returns as a string, not a `Date`). -/
theorem decode_encode_datefree (m : Message) (h : dateFree m = true) :
    roundTripJS (jsOfMsg m) = some (jsOfMsg m) := by
  rw [roundTripJS_eq, jsonToJS_jsToJson _ (noDate_msg m h)]

theorem decode_encode_datefree_witness :
    roundTripJS (jsOfMsg (.dash .resetTournament)) = some (jsOfMsg (.dash .resetTournament)) :=
  decode_encode_datefree (.dash .resetTournament) rfl

/-! ## Message Codec: validating decode

Modelled from the spec: the server's validating `decode` (section 4.4) is
not among the shipped sources; the shipped tests only show that raw input
goes through `JSON.parse` (which throws on syntactically invalid text).
Per the spec, decode parses the `type` tag first, fails with
`UnknownMessageType` when the tag is not an enumerated variant, and with
`MalformedMessage` when required fields for the resolved tag are missing or
of the wrong shape, or when the raw input itself is unparseable.
-/

inductive DecodeErr where
  | unknownMessageType : DecodeErr
  | malformedMessage : DecodeErr
deriving DecidableEq

def getField : List (String × Json) → String → Option Json
  | [], _ => none
  | (k, v) :: fs, key => if k = key then some v else getField fs key

def asStr : Json → Option String
  | .str s => some s
  | _ => none

def asInt : Json → Option Int
  | .num n => some n
  | _ => none

def asBool : Json → Option Bool
  | .bool b => some b
  | _ => none

def asOptStr : Option Json → Option (Option String)
  | none => some none
  | some .null => some none
  | some (.str s) => some (some s)
  | some _ => none

def asOptInt : Option Json → Option (Option Int)
  | none => some none
  | some .null => some none
  | some (.num n) => some (some n)
  | some _ => none

def asOptBool : Option Json → Option (Option Bool)
  | none => some none
  | some .null => some none
  | some (.bool b) => some (some b)
  | some _ => none

def resultOfWire (s : String) : Option Result :=
  if s = "0-1" then some .r01
  else if s = "1-0" then some .r10
  else if s = "1/2-1/2" then some .rHalf
  else none

def roundNameOfWire (s : String) : Option RoundName :=
  if s = "final" then some .final
  else if s = "match_for_third" then some .matchForThird
  else if s = "semifinal" then some .semifinal
  else if s = "quarterfinal" then some .quarterfinal
  else if s = "1/8" then some .r8
  else if s = "1/16" then some .r16
  else if s = "1/32" then some .r32
  else if s = "1/64" then some .r64
  else if s = "1/128" then some .r128
  else none

def asOptResult (o : Option Json) : Option (Option Result) :=
  match o with
  | none => some none
  | some .null => some none
  | some (.str s) => (resultOfWire s).map some
  | some _ => none

def asOptRoundName (o : Option Json) : Option (Option RoundName) :=
  match o with
  | none => some none
  | some .null => some none
  | some (.str s) => (roundNameOfWire s).map some
  | some _ => none

def digitsVal? (l : List Char) : Option Nat :=
  if l.all isDigitC then some (l.foldl (fun a c => 10 * a + digitVal c) 0) else none

/-- Parse an ISO-8601 UTC timestamp of the exact shape emitted by
`isoOfMs` back to milliseconds since the epoch (days-from-civil). -/
def isoParseMs (s : String) : Option Int :=
  match s.data with
  | [y1, y2, y3, y4, '-', mo1, mo2, '-', d1, d2, 'T', h1, h2, ':', mi1, mi2, ':',
     s1, s2, '.', x1, x2, x3, 'Z'] => do
    let y ← digitsVal? [y1, y2, y3, y4]
    let mo ← digitsVal? [mo1, mo2]
    let d ← digitsVal? [d1, d2]
    let hh ← digitsVal? [h1, h2]
    let mi ← digitsVal? [mi1, mi2]
    let ss ← digitsVal? [s1, s2]
    let mss ← digitsVal? [x1, x2, x3]
    if 1 ≤ mo ∧ mo ≤ 12 ∧ 1 ≤ d ∧ d ≤ 31 ∧ hh ≤ 23 ∧ mi ≤ 59 ∧ ss ≤ 59 then
      let y' : Int := if mo ≤ 2 then (y : Int) - 1 else (y : Int)
      let era : Int := Int.ediv y' 400
      let yoe : Nat := (y' - era * 400).toNat
      let mp : Nat := if mo > 2 then mo - 3 else mo + 9
      let doy : Nat := (153 * mp + 2) / 5 + d - 1
      let doe : Nat := yoe * 365 + yoe / 4 - yoe / 100 + doy
      let days : Int := era * 146097 + (doe : Int) - 719468
      some (days * 86400000 + (hh : Int) * 3600000 + (mi : Int) * 60000 +
        (ss : Int) * 1000 + (mss : Int))
    else none
  | _ => none

def validatePlayer (j : Json) : Option PlayerModel :=
  match j with
  | .obj pf =>
    match (getField pf "id").bind asStr, (getField pf "nickname").bind asStr,
      asOptStr (getField pf "realname"), asOptInt (getField pf "rating"),
      (getField pf "wins").bind asInt, (getField pf "draws").bind asInt,
      (getField pf "losses").bind asInt, (getField pf "color_index").bind asInt,
      asOptBool (getField pf "exited"), asOptInt (getField pf "place") with
    | some id, some nickname, some realname, some rating, some wins, some draws,
      some losses, some color_index, some exited, some place =>
      some ⟨id, nickname, realname, rating, wins, draws, losses, color_index, exited, place⟩
    | _, _, _, _, _, _, _, _, _, _ => none
  | _ => none

def validateGame (j : Json) : Option GameModel :=
  match j with
  | .obj gf =>
    match (getField gf "id").bind asStr, (getField gf "black_id").bind asStr,
      (getField gf "white_id").bind asStr, (getField gf "black_nickname").bind asStr,
      (getField gf "white_nickname").bind asStr, asOptStr (getField gf "black_prev_game_id"),
      asOptStr (getField gf "white_prev_game_id"), (getField gf "round_number").bind asInt,
      asOptRoundName (getField gf "round_name"), (getField gf "game_number").bind asInt,
      asOptResult (getField gf "result") with
    | some id, some black_id, some white_id, some black_nickname, some white_nickname,
      some bpg, some wpg, some round_number, some round_name, some game_number,
      some result =>
      some ⟨id, black_id, white_id, black_nickname, white_nickname, bpg, wpg, round_number,
        round_name, game_number, result⟩
    | _, _, _, _, _, _, _, _, _, _, _ => none
  | _ => none

def validateGames : List Json → Option (List GameModel)
  | [] => some []
  | j :: js =>
    match validateGame j, validateGames js with
    | some g, some gs => some (g :: gs)
    | _, _ => none

def knownTags : List String :=
  ["add-existing-player", "add-new-player", "remove-player", "set-game-result",
   "start-tournament", "reset-tournament", "new-round", "finish-tournament",
   "delete-tournament", "error", "user_notification", "removed_from_club"]

def ofOption (o : Option Message) : Except DecodeErr Message :=
  match o with
  | some m => .ok m
  | none => .error .malformedMessage

/-- Modelled from the spec: tag dispatch and per-variant shape validation. -/
def validateTagged (fs : List (String × Json)) (t : String) : Except DecodeErr Message :=
  if t = "add-existing-player" then
    ofOption (((getField fs "body").bind validatePlayer).map fun p =>
      .dash (.addExistingPlayer p))
  else if t = "add-new-player" then
    ofOption (((getField fs "body").bind validatePlayer).map fun p => .dash (.addNewPlayer p))
  else if t = "remove-player" then
    ofOption (((getField fs "id").bind asStr).map fun i => .dash (.removePlayer i))
  else if t = "set-game-result" then
    ofOption (match (getField fs "gameId").bind asStr,
      ((getField fs "result").bind asStr).bind resultOfWire,
      (getField fs "roundNumber").bind asInt with
      | some g, some r, some n => some (.dash (.setGameResult g r n))
      | _, _, _ => none)
  else if t = "start-tournament" then
    ofOption (match ((getField fs "started_at").bind asStr).bind isoParseMs,
      (getField fs "rounds_number").bind asInt with
      | some sa, some rn => some (.dash (.startTournament sa rn))
      | _, _ => none)
  else if t = "reset-tournament" then .ok (.dash .resetTournament)
  else if t = "new-round" then
    ofOption (match (getField fs "roundNumber").bind asInt,
      (match getField fs "newGames" with
       | some (.arr js) => validateGames js
       | _ => none),
      (getField fs "isTournamentGoing").bind asBool with
      | some rn, some gs, some going => some (.dash (.newRound rn gs going))
      | _, _, _ => none)
  else if t = "finish-tournament" then
    ofOption (((getField fs "closed_at").bind asStr).bind isoParseMs |>.map fun ca =>
      .dash (.finishTournament ca))
  else if t = "delete-tournament" then .ok (.dash .deleteTournament)
  else if t = "error" then
    match getField fs "recipientId" with
    | some (.str rid) =>
      ofOption (((getField fs "message").bind asStr).map fun msg => .glob (.error rid msg))
    | _ =>
      ofOption (((getField fs "message").bind asStr).map fun msg => .dash (.error msg))
  else if t = "user_notification" then
    ofOption (((getField fs "recipientId").bind asStr).map fun rid =>
      .glob (.userNotification rid))
  else if t = "removed_from_club" then
    ofOption (match (getField fs "clubId").bind asStr,
      (getField fs "recipientId").bind asStr with
      | some cid, some rid => some (.glob (.removedFromClub cid rid))
      | _, _ => none)
  else .error .unknownMessageType

/-- Modelled from the spec: validate a parsed JSON value as a message. -/
def validateMsg (j : Json) : Except DecodeErr Message :=
  match j with
  | .obj fs =>
    match getField fs "type" with
    | some (.str t) => validateTagged fs t
    | _ => .error .malformedMessage
  | _ => .error .malformedMessage

/-- Modelled from the spec: `decode(raw) -> Message` of section 4.4;
unparseable raw input is a `MalformedMessage` failure. -/
def decodeMsg (raw : String) : Except DecodeErr Message :=
  match jsonParse raw with
  | none => .error .malformedMessage
  | some j => validateMsg j

/-- The `type` tag of a parsed JSON value, when it has one. -/
def jTag (j : Json) : Option String :=
  match j with
  | .obj fs => (getField fs "type").bind asStr
  | _ => none

/-- Shape check: the field is present and is a JSON string. -/
def strOk : Option Json → Bool
  | some (.str _) => true
  | _ => false

/-- Shape check: the field is present and is a JSON number. -/
def intOk : Option Json → Bool
  | some (.num _) => true
  | _ => false

/-- Shape check: the field is present and is a JSON boolean. -/
def boolOk : Option Json → Bool
  | some (.bool _) => true
  | _ => false

/-- Shape check for a nullable/optional string field. -/
def optStrOk : Option Json → Bool
  | none => true
  | some .null => true
  | some (.str _) => true
  | some _ => false

/-- Shape check for a nullable/optional number field. -/
def optIntOk : Option Json → Bool
  | none => true
  | some .null => true
  | some (.num _) => true
  | some _ => false

/-- Shape check for a nullable/optional boolean field. -/
def optBoolOk : Option Json → Bool
  | none => true
  | some .null => true
  | some (.bool _) => true
  | some _ => false

/-- Shape check for a nullable/optional game-result field. -/
def optResultOk : Option Json → Bool
  | none => true
  | some .null => true
  | some (.str s) => (resultOfWire s).isSome
  | some _ => false

/-- Shape check for a nullable/optional round-name field. -/
def optRoundNameOk : Option Json → Bool
  | none => true
  | some .null => true
  | some (.str s) => (roundNameOfWire s).isSome
  | some _ => false

/-- Shape check: a required game-result field (`0-1`, `1-0`, `1/2-1/2`). -/
def resultFieldOk : Option Json → Bool
  | some (.str s) => (resultOfWire s).isSome
  | _ => false

/-- Shape check: a required serialized-timestamp field. -/
def isoFieldOk : Option Json → Bool
  | some (.str s) => (isoParseMs s).isSome
  | _ => false

/-- All required `PlayerModel` fields present with the declared shapes. -/
def playerOk : Json → Bool
  | .obj pf =>
    strOk (getField pf "id") && strOk (getField pf "nickname") &&
    optStrOk (getField pf "realname") && optIntOk (getField pf "rating") &&
    intOk (getField pf "wins") && intOk (getField pf "draws") &&
    intOk (getField pf "losses") && intOk (getField pf "color_index") &&
    optBoolOk (getField pf "exited") && optIntOk (getField pf "place")
  | _ => false

/-- All required `GameModel` fields present with the declared shapes. -/
def gameOk : Json → Bool
  | .obj gf =>
    strOk (getField gf "id") && strOk (getField gf "black_id") &&
    strOk (getField gf "white_id") && strOk (getField gf "black_nickname") &&
    strOk (getField gf "white_nickname") && optStrOk (getField gf "black_prev_game_id") &&
    optStrOk (getField gf "white_prev_game_id") && intOk (getField gf "round_number") &&
    optRoundNameOk (getField gf "round_name") && intOk (getField gf "game_number") &&
    optResultOk (getField gf "result")
  | _ => false

/-- The required fields of each enumerated tag, with their declared shapes,
read off the DashboardMessage/GlobalMessage unions: true exactly when every
required field for tag `t` is present and well-typed in `fs`. -/
def requiredOk (fs : List (String × Json)) (t : String) : Bool :=
  if t = "add-existing-player" then
    match getField fs "body" with
    | some b => playerOk b
    | none => false
  else if t = "add-new-player" then
    match getField fs "body" with
    | some b => playerOk b
    | none => false
  else if t = "remove-player" then strOk (getField fs "id")
  else if t = "set-game-result" then
    strOk (getField fs "gameId") && resultFieldOk (getField fs "result") &&
      intOk (getField fs "roundNumber")
  else if t = "start-tournament" then
    isoFieldOk (getField fs "started_at") && intOk (getField fs "rounds_number")
  else if t = "reset-tournament" then true
  else if t = "new-round" then
    intOk (getField fs "roundNumber") &&
      (match getField fs "newGames" with
       | some (.arr js) => js.all gameOk
       | _ => false) &&
      boolOk (getField fs "isTournamentGoing")
  else if t = "finish-tournament" then isoFieldOk (getField fs "closed_at")
  else if t = "delete-tournament" then true
  else if t = "error" then strOk (getField fs "message")
  else if t = "user_notification" then strOk (getField fs "recipientId")
  else if t = "removed_from_club" then
    strOk (getField fs "clubId") && strOk (getField fs "recipientId")
  else true

theorem strOk_of_bind (o : Option Json) (s : String) (h : o.bind asStr = some s) :
    strOk o = true := by
  cases o with
  | none => exact absurd h (by simp)
  | some j => cases j <;> simp_all [asStr, strOk]

theorem intOk_of_bind (o : Option Json) (n : Int) (h : o.bind asInt = some n) :
    intOk o = true := by
  cases o with
  | none => exact absurd h (by simp)
  | some j => cases j <;> simp_all [asInt, intOk]

theorem boolOk_of_bind (o : Option Json) (b : Bool) (h : o.bind asBool = some b) :
    boolOk o = true := by
  cases o with
  | none => exact absurd h (by simp)
  | some j => cases j <;> simp_all [asBool, boolOk]

theorem optStrOk_of (o : Option Json) (x : Option String) (h : asOptStr o = some x) :
    optStrOk o = true := by
  cases o with
  | none => rfl
  | some j => cases j <;> simp_all [asOptStr, optStrOk]

theorem optIntOk_of (o : Option Json) (x : Option Int) (h : asOptInt o = some x) :
    optIntOk o = true := by
  cases o with
  | none => rfl
  | some j => cases j <;> simp_all [asOptInt, optIntOk]

theorem optBoolOk_of (o : Option Json) (x : Option Bool) (h : asOptBool o = some x) :
    optBoolOk o = true := by
  cases o with
  | none => rfl
  | some j => cases j <;> simp_all [asOptBool, optBoolOk]

theorem optResultOk_of (o : Option Json) (x : Option Result) (h : asOptResult o = some x) :
    optResultOk o = true := by
  cases o with
  | none => rfl
  | some j =>
    cases j with
    | str s =>
      show (resultOfWire s).isSome = true
      cases hr : resultOfWire s with
      | none =>
        have h2 : Option.map some (resultOfWire s) = some x := h
        rw [hr] at h2
        exact absurd h2 (by simp)
      | some r => rfl
    | null => rfl
    | bool b => exact absurd h (by simp [asOptResult])
    | num n => exact absurd h (by simp [asOptResult])
    | arr xs => exact absurd h (by simp [asOptResult])
    | obj fs => exact absurd h (by simp [asOptResult])

theorem optRoundNameOk_of (o : Option Json) (x : Option RoundName)
    (h : asOptRoundName o = some x) : optRoundNameOk o = true := by
  cases o with
  | none => rfl
  | some j =>
    cases j with
    | str s =>
      show (roundNameOfWire s).isSome = true
      cases hr : roundNameOfWire s with
      | none =>
        have h2 : Option.map some (roundNameOfWire s) = some x := h
        rw [hr] at h2
        exact absurd h2 (by simp)
      | some r => rfl
    | null => rfl
    | bool b => exact absurd h (by simp [asOptRoundName])
    | num n => exact absurd h (by simp [asOptRoundName])
    | arr xs => exact absurd h (by simp [asOptRoundName])
    | obj fs => exact absurd h (by simp [asOptRoundName])

theorem resultFieldOk_of (o : Option Json) (r : Result)
    (h : (o.bind asStr).bind resultOfWire = some r) : resultFieldOk o = true := by
  cases o with
  | none => exact absurd h (by simp)
  | some j =>
    cases j <;> simp_all [asStr, resultFieldOk]

theorem isoFieldOk_of (o : Option Json) (n : Int)
    (h : (o.bind asStr).bind isoParseMs = some n) : isoFieldOk o = true := by
  cases o with
  | none => exact absurd h (by simp)
  | some j =>
    cases j <;> simp_all [asStr, isoFieldOk]


theorem validatePlayer_ok (b : Json) (p : PlayerModel) (h : validatePlayer b = some p) :
    playerOk b = true := by
  cases b with
  | obj pf =>
    simp only [validatePlayer] at h
    split at h
    · simp only [playerOk, Bool.and_eq_true]
      exact ⟨⟨⟨⟨⟨⟨⟨⟨⟨strOk_of_bind _ _ (by assumption), strOk_of_bind _ _ (by assumption)⟩,
        optStrOk_of _ _ (by assumption)⟩, optIntOk_of _ _ (by assumption)⟩,
        intOk_of_bind _ _ (by assumption)⟩, intOk_of_bind _ _ (by assumption)⟩,
        intOk_of_bind _ _ (by assumption)⟩, intOk_of_bind _ _ (by assumption)⟩,
        optBoolOk_of _ _ (by assumption)⟩, optIntOk_of _ _ (by assumption)⟩
    · exact Option.noConfusion h
  | null => exact Option.noConfusion h
  | bool b => exact Option.noConfusion h
  | num n => exact Option.noConfusion h
  | str s => exact Option.noConfusion h
  | arr xs => exact Option.noConfusion h

theorem validateGame_ok (b : Json) (g : GameModel) (h : validateGame b = some g) :
    gameOk b = true := by
  cases b with
  | obj gf =>
    simp only [validateGame] at h
    split at h
    · simp only [gameOk, Bool.and_eq_true]
      exact ⟨⟨⟨⟨⟨⟨⟨⟨⟨⟨strOk_of_bind _ _ (by assumption), strOk_of_bind _ _ (by assumption)⟩,
        strOk_of_bind _ _ (by assumption)⟩, strOk_of_bind _ _ (by assumption)⟩,
        strOk_of_bind _ _ (by assumption)⟩, optStrOk_of _ _ (by assumption)⟩,
        optStrOk_of _ _ (by assumption)⟩, intOk_of_bind _ _ (by assumption)⟩,
        optRoundNameOk_of _ _ (by assumption)⟩, intOk_of_bind _ _ (by assumption)⟩,
        optResultOk_of _ _ (by assumption)⟩
    · exact Option.noConfusion h
  | null => exact Option.noConfusion h
  | bool b => exact Option.noConfusion h
  | num n => exact Option.noConfusion h
  | str s => exact Option.noConfusion h
  | arr xs => exact Option.noConfusion h

theorem validateGames_ok (js : List Json) (gs : List GameModel)
    (h : validateGames js = some gs) : js.all gameOk = true := by
  induction js generalizing gs with
  | nil => rfl
  | cons j js ih =>
    simp only [validateGames] at h
    split at h
    · simp only [List.all_cons, Bool.and_eq_true]
      exact ⟨validateGame_ok _ _ (by assumption), ih _ (by assumption)⟩
    · exact Option.noConfusion h

theorem ofOption_eq_ok (o : Option Message) (m : Message) :
    ofOption o = .ok m ↔ o = some m := by
  cases o <;> simp [ofOption]

theorem ofOption_ne_unknown (o : Option Message) :
    ofOption o ≠ .error .unknownMessageType := by
  cases o <;> simp [ofOption]

theorem strOk_of_ofOption_map (o : Option Json) (f : String → Message) (m : Message)
    (h : ofOption ((o.bind asStr).map f) = .ok m) : strOk o = true := by
  rw [ofOption_eq_ok] at h
  cases hs : o.bind asStr with
  | none => rw [hs] at h; exact Option.noConfusion h
  | some s => exact strOk_of_bind _ _ hs


theorem validateTagged_ok_requiredOk (fs : List (String × Json)) (t : String) (m : Message)
    (h : validateTagged fs t = .ok m) : requiredOk fs t = true := by
  unfold validateTagged at h
  unfold requiredOk
  by_cases e1 : t = "add-existing-player"
  · rw [if_pos e1] at h
    rw [if_pos e1]
    rw [ofOption_eq_ok] at h
    cases hb : getField fs "body" with
    | none => rw [hb] at h; exact Option.noConfusion h
    | some b =>
      rw [hb] at h
      simp only [Option.some_bind] at h
      cases hv : validatePlayer b with
      | none => rw [hv] at h; exact Option.noConfusion h
      | some p => exact validatePlayer_ok b p hv
  rw [if_neg e1] at h
  rw [if_neg e1]
  by_cases e2 : t = "add-new-player"
  · rw [if_pos e2] at h
    rw [if_pos e2]
    rw [ofOption_eq_ok] at h
    cases hb : getField fs "body" with
    | none => rw [hb] at h; exact Option.noConfusion h
    | some b =>
      rw [hb] at h
      simp only [Option.some_bind] at h
      cases hv : validatePlayer b with
      | none => rw [hv] at h; exact Option.noConfusion h
      | some p => exact validatePlayer_ok b p hv
  rw [if_neg e2] at h
  rw [if_neg e2]
  by_cases e3 : t = "remove-player"
  · rw [if_pos e3] at h
    rw [if_pos e3]
    exact strOk_of_ofOption_map _ _ _ h
  rw [if_neg e3] at h
  rw [if_neg e3]
  by_cases e4 : t = "set-game-result"
  · rw [if_pos e4] at h
    rw [if_pos e4]
    rw [ofOption_eq_ok] at h
    cases hg : (getField fs "gameId").bind asStr with
    | none => rw [hg] at h; exact Option.noConfusion h
    | some g =>
      rw [hg] at h
      cases hr : ((getField fs "result").bind asStr).bind resultOfWire with
      | none => rw [hr] at h; exact Option.noConfusion h
      | some r =>
        rw [hr] at h
        cases hn : (getField fs "roundNumber").bind asInt with
        | none => rw [hn] at h; exact Option.noConfusion h
        | some n =>
          simp only [Bool.and_eq_true]
          exact ⟨⟨strOk_of_bind _ _ hg, resultFieldOk_of _ _ hr⟩, intOk_of_bind _ _ hn⟩
  rw [if_neg e4] at h
  rw [if_neg e4]
  by_cases e5 : t = "start-tournament"
  · rw [if_pos e5] at h
    rw [if_pos e5]
    rw [ofOption_eq_ok] at h
    cases hs : ((getField fs "started_at").bind asStr).bind isoParseMs with
    | none => rw [hs] at h; exact Option.noConfusion h
    | some sa =>
      rw [hs] at h
      cases hn : (getField fs "rounds_number").bind asInt with
      | none => rw [hn] at h; exact Option.noConfusion h
      | some rn =>
        simp only [Bool.and_eq_true]
        exact ⟨isoFieldOk_of _ _ hs, intOk_of_bind _ _ hn⟩
  rw [if_neg e5] at h
  rw [if_neg e5]
  by_cases e6 : t = "reset-tournament"
  · rw [if_pos e6]
  rw [if_neg e6] at h
  rw [if_neg e6]
  by_cases e7 : t = "new-round"
  · rw [if_pos e7] at h
    rw [if_pos e7]
    rw [ofOption_eq_ok] at h
    cases hn : (getField fs "roundNumber").bind asInt with
    | none => rw [hn] at h; exact Option.noConfusion h
    | some rn =>
      rw [hn] at h
      cases hgs : (match getField fs "newGames" with
        | some (.arr js) => validateGames js
        | _ => none : Option (List GameModel)) with
      | none => rw [hgs] at h; exact Option.noConfusion h
      | some gs =>
        rw [hgs] at h
        cases hgo : (getField fs "isTournamentGoing").bind asBool with
        | none => rw [hgo] at h; exact Option.noConfusion h
        | some going =>
          simp only [Bool.and_eq_true]
          refine ⟨⟨intOk_of_bind _ _ hn, ?_⟩, boolOk_of_bind _ _ hgo⟩
          cases hng : getField fs "newGames" with
          | none => rw [hng] at hgs; exact Option.noConfusion hgs
          | some jv =>
            rw [hng] at hgs
            cases jv with
            | arr js => exact validateGames_ok js gs hgs
            | null => exact Option.noConfusion hgs
            | bool b => exact Option.noConfusion hgs
            | num n => exact Option.noConfusion hgs
            | str s => exact Option.noConfusion hgs
            | obj fs2 => exact Option.noConfusion hgs
  rw [if_neg e7] at h
  rw [if_neg e7]
  by_cases e8 : t = "finish-tournament"
  · rw [if_pos e8] at h
    rw [if_pos e8]
    rw [ofOption_eq_ok] at h
    cases hc : ((getField fs "closed_at").bind asStr).bind isoParseMs with
    | none => rw [hc] at h; exact Option.noConfusion h
    | some ca => exact isoFieldOk_of _ _ hc
  rw [if_neg e8] at h
  rw [if_neg e8]
  by_cases e9 : t = "delete-tournament"
  · rw [if_pos e9]
  rw [if_neg e9] at h
  rw [if_neg e9]
  by_cases e10 : t = "error"
  · rw [if_pos e10] at h
    rw [if_pos e10]
    cases hr : getField fs "recipientId" with
    | none =>
      rw [hr] at h
      exact strOk_of_ofOption_map _ _ _ h
    | some jv =>
      rw [hr] at h
      cases jv <;> exact strOk_of_ofOption_map _ _ _ h
  rw [if_neg e10] at h
  rw [if_neg e10]
  by_cases e11 : t = "user_notification"
  · rw [if_pos e11] at h
    rw [if_pos e11]
    exact strOk_of_ofOption_map _ _ _ h
  rw [if_neg e11] at h
  rw [if_neg e11]
  by_cases e12 : t = "removed_from_club"
  · rw [if_pos e12] at h
    rw [if_pos e12]
    rw [ofOption_eq_ok] at h
    cases hc : (getField fs "clubId").bind asStr with
    | none => rw [hc] at h; exact Option.noConfusion h
    | some cid =>
      rw [hc] at h
      cases hrid : (getField fs "recipientId").bind asStr with
      | none => rw [hrid] at h; exact Option.noConfusion h
      | some rid =>
        simp only [Bool.and_eq_true]
        exact ⟨strOk_of_bind _ _ hc, strOk_of_bind _ _ hrid⟩
  rw [if_neg e12]

theorem validateTagged_known_not_unknown (fs : List (String × Json)) (t : String)
    (hmem : t ∈ knownTags) : validateTagged fs t ≠ .error .unknownMessageType := by
  intro h
  unfold validateTagged at h
  by_cases e1 : t = "add-existing-player"
  · rw [if_pos e1] at h; exact ofOption_ne_unknown _ h
  rw [if_neg e1] at h
  by_cases e2 : t = "add-new-player"
  · rw [if_pos e2] at h; exact ofOption_ne_unknown _ h
  rw [if_neg e2] at h
  by_cases e3 : t = "remove-player"
  · rw [if_pos e3] at h; exact ofOption_ne_unknown _ h
  rw [if_neg e3] at h
  by_cases e4 : t = "set-game-result"
  · rw [if_pos e4] at h; exact ofOption_ne_unknown _ h
  rw [if_neg e4] at h
  by_cases e5 : t = "start-tournament"
  · rw [if_pos e5] at h; exact ofOption_ne_unknown _ h
  rw [if_neg e5] at h
  by_cases e6 : t = "reset-tournament"
  · rw [if_pos e6] at h; exact Except.noConfusion h
  rw [if_neg e6] at h
  by_cases e7 : t = "new-round"
  · rw [if_pos e7] at h; exact ofOption_ne_unknown _ h
  rw [if_neg e7] at h
  by_cases e8 : t = "finish-tournament"
  · rw [if_pos e8] at h; exact ofOption_ne_unknown _ h
  rw [if_neg e8] at h
  by_cases e9 : t = "delete-tournament"
  · rw [if_pos e9] at h; exact Except.noConfusion h
  rw [if_neg e9] at h
  by_cases e10 : t = "error"
  · rw [if_pos e10] at h
    split at h <;> exact ofOption_ne_unknown _ h
  rw [if_neg e10] at h
  by_cases e11 : t = "user_notification"
  · rw [if_pos e11] at h; exact ofOption_ne_unknown _ h
  rw [if_neg e11] at h
  by_cases e12 : t = "removed_from_club"
  · rw [if_pos e12] at h; exact ofOption_ne_unknown _ h
  rw [if_neg e12] at h
  simp only [knownTags, List.mem_cons, List.not_mem_nil, or_false] at hmem
  rcases hmem with rfl | rfl | rfl | rfl | rfl | rfl | rfl | rfl | rfl | rfl | rfl | rfl <;>
    simp_all


/-- C8 (spec-modelled): decode fails with `MalformedMessage` on syntactically
invalid raw input (the malformed inputs of the test suite among them), fails
with `UnknownMessageType` on an unrecognized tag, fails with
`MalformedMessage` on a recognized tag whose required fields are missing or
wrongly typed, and only returns a message when every required field of the
tag passed validation — never a partially populated value. -/
theorem decode_rejects_invalid :
    (decodeMsg "invalid json\x7b" = .error .malformedMessage ∧
      decodeMsg "" = .error .malformedMessage ∧
      decodeMsg "\x7bincomplete" = .error .malformedMessage) ∧
    (∀ raw : String, jsonParse raw = none → decodeMsg raw = .error .malformedMessage) ∧
    (∀ (raw : String) (j : Json) (t : String), jsonParse raw = some j → jTag j = some t →
      t ∉ knownTags → decodeMsg raw = .error .unknownMessageType) ∧
    (∀ (raw : String) (fs : List (String × Json)) (t : String),
      jsonParse raw = some (.obj fs) → getField fs "type" = some (.str t) →
      t ∈ knownTags → requiredOk fs t = false →
      decodeMsg raw = .error .malformedMessage) ∧
    (∀ (raw : String) (fs : List (String × Json)) (t : String) (m : Message),
      jsonParse raw = some (.obj fs) → getField fs "type" = some (.str t) →
      decodeMsg raw = .ok m → requiredOk fs t = true) := by
  refine ⟨⟨rfl, rfl, rfl⟩, ?_, ?_, ?_, ?_⟩
  · intro raw h
    unfold decodeMsg
    rw [h]
  · intro raw j t hp ht hmem
    unfold decodeMsg
    rw [hp]
    cases j with
    | obj fs =>
      show validateMsg (Json.obj fs) = Except.error DecodeErr.unknownMessageType
      have ht2 : (getField fs "type").bind asStr = some t := ht
      cases hg : getField fs "type" with
      | none =>
        rw [hg] at ht2
        exact absurd ht2 (by simp)
      | some jv =>
        rw [hg] at ht2
        simp only [Option.some_bind] at ht2
        cases jv with
        | str tt =>
          unfold asStr at ht2
          injection ht2 with ht2
          subst ht2
          simp only [validateMsg, hg]
          simp only [knownTags, List.mem_cons, List.not_mem_nil, or_false, not_or] at hmem
          obtain ⟨h1, h2, h3, h4, h5, h6, h7, h8, h9, h10, h11, h12⟩ := hmem
          unfold validateTagged
          rw [if_neg h1, if_neg h2, if_neg h3, if_neg h4, if_neg h5, if_neg h6, if_neg h7,
            if_neg h8, if_neg h9, if_neg h10, if_neg h11, if_neg h12]
        | null => exact absurd ht2 (by simp [asStr])
        | bool b => exact absurd ht2 (by simp [asStr])
        | num n => exact absurd ht2 (by simp [asStr])
        | arr xs => exact absurd ht2 (by simp [asStr])
        | obj fs2 => exact absurd ht2 (by simp [asStr])
    | null => exact absurd ht (by simp [jTag])
    | bool b => exact absurd ht (by simp [jTag])
    | num n => exact absurd ht (by simp [jTag])
    | str s => exact absurd ht (by simp [jTag])
    | arr xs => exact absurd ht (by simp [jTag])
  · intro raw fs t hp ht hmem hreq
    unfold decodeMsg
    rw [hp]
    show validateMsg (Json.obj fs) = Except.error DecodeErr.malformedMessage
    simp only [validateMsg, ht]
    cases hv : validateTagged fs t with
    | ok m =>
      have hok := validateTagged_ok_requiredOk fs t m hv
      rw [hreq] at hok
      exact Bool.noConfusion hok
    | error e =>
      cases e with
      | malformedMessage => rfl
      | unknownMessageType => exact absurd hv (validateTagged_known_not_unknown fs t hmem)
  · intro raw fs t m hp ht hok
    unfold decodeMsg at hok
    rw [hp] at hok
    have h2 : validateMsg (Json.obj fs) = Except.ok m := hok
    simp only [validateMsg, ht] at h2
    exact validateTagged_ok_requiredOk fs t m h2

theorem decode_rejects_invalid_witness :
    decodeMsg "\x7b\"type\":\"set-game-result\",\"gameId\":\"g1\"\x7d" =
      .error .malformedMessage :=
  decode_rejects_invalid.2.2.2.1 "\x7b\"type\":\"set-game-result\",\"gameId\":\"g1\"\x7d"
    [("type", .str "set-game-result"), ("gameId", .str "g1")] "set-game-result"
    rfl rfl (by decide) rfl

/-- Top-level field names of a runtime object value. -/
def topKeys : JSValue → List String
  | .obj fs => fs.map fun p => p.1
  | _ => []

def isAddPlayer : DashboardMessage → Bool
  | .addExistingPlayer _ => true
  | .addNewPlayer _ => true
  | _ => false

/-- C10: the two player-add variants nest their `PlayerModel` payload under
a `body` field (wire shape `\x7btype, body\x7d`); every other dashboard
variant carries its payload fields at the top level and has no `body`
field. -/
theorem addPlayer_body_nested :
    (∀ p, jsOfDashboard (.addExistingPlayer p) =
      .obj [("type", .str "add-existing-player"), ("body", jsOfPlayer p)]) ∧
    (∀ p, jsOfDashboard (.addNewPlayer p) =
      .obj [("type", .str "add-new-player"), ("body", jsOfPlayer p)]) ∧
    (∀ m, (topKeys (jsOfDashboard m)).contains "body" = isAddPlayer m) ∧
    (∀ i, topKeys (jsOfDashboard (.removePlayer i)) = ["type", "id"]) ∧
    (∀ g r n, topKeys (jsOfDashboard (.setGameResult g r n)) =
      ["type", "gameId", "result", "roundNumber"]) ∧
    (∀ sa rn, topKeys (jsOfDashboard (.startTournament sa rn)) =
      ["type", "started_at", "rounds_number"]) ∧
    (topKeys (jsOfDashboard .resetTournament) = ["type"]) ∧
    (∀ rn gs going, topKeys (jsOfDashboard (.newRound rn gs going)) =
      ["type", "roundNumber", "newGames", "isTournamentGoing"]) ∧
    (∀ ca, topKeys (jsOfDashboard (.finishTournament ca)) = ["type", "closed_at"]) ∧
    (topKeys (jsOfDashboard .deleteTournament) = ["type"]) ∧
    (∀ msg, topKeys (jsOfDashboard (.error msg)) = ["type", "message"]) := by
  refine ⟨fun p => rfl, fun p => rfl, ?_, fun i => rfl, fun g r n => rfl, fun sa rn => rfl,
    rfl, fun rn gs going => rfl, fun ca => rfl, rfl, fun msg => rfl⟩
  intro m
  cases m <;> rfl

/-! ## Connection contexts (src/types/ws-events.d.ts: WebSocketData) -/

/-- `Status` of the tournaments type declarations. -/
inductive Status where
  | organizer : Status
  | player : Status
  | viewer : Status
deriving DecidableEq

/-- The `WebSocketData` union.  The guest variant's declaration pins
`username: null`, `userId: null` and `status: 'viewer'` as literal types,
so its constructor carries only the free fields; the accessors below
expose the declared field values of each variant. -/
inductive WebSocketData where
  | tournamentAuth (username : String) (tournamentId : String) (status : Status)
      (userId : String)
  | tournamentGuest (tournamentId : String) (ip : String)
  | globalConn (username : String) (userId : String) (status : Option Status)
deriving DecidableEq

def username? : WebSocketData → Option String
  | .tournamentAuth u _ _ _ => some u
  | .tournamentGuest _ _ => none
  | .globalConn u _ _ => some u

def userId? : WebSocketData → Option String
  | .tournamentAuth _ _ _ uid => some uid
  | .tournamentGuest _ _ => none
  | .globalConn _ uid _ => some uid

/-- The effective role of a connection; guests are pinned to `viewer`, and
a global connection without an explicit status defaults to the
player-equivalent role (spec section 4.2). -/
def statusOf : WebSocketData → Status
  | .tournamentAuth _ _ st _ => st
  | .tournamentGuest _ _ => .viewer
  | .globalConn _ _ st => st.getD .player

def isGuest : WebSocketData → Bool
  | .tournamentGuest _ _ => true
  | _ => false

/-- C6: `username` and `userId` are null together, never independently,
and every guest value has role `viewer` with both null. -/
theorem guest_nulls_together (d : WebSocketData) :
    ((username? d).isNone ↔ (userId? d).isNone) ∧
    (isGuest d = true → statusOf d = .viewer ∧ username? d = none ∧ userId? d = none) := by
  cases d <;> simp [username?, userId?, statusOf, isGuest]

theorem guest_nulls_together_witness :
    statusOf (.tournamentGuest "tournament123" "127.0.0.1") = .viewer ∧
    username? (.tournamentGuest "tournament123" "127.0.0.1") = none ∧
    userId? (.tournamentGuest "tournament123" "127.0.0.1") = none :=
  (guest_nulls_together (.tournamentGuest "tournament123" "127.0.0.1")).2 rfl

/-! ## Authorization Gate

Modelled from the spec: the authorization gate (section 4.5) is not among
the shipped sources; the tests only pin the three role values and that a
player lacks organizer privileges.  Per the spec: an organizer may send any
dashboard message; a player may send none of the tournament-control
messages (start/reset/finish/delete, new-round, player add/remove) and
`set-game-result` additionally requires `organizer`; a viewer (guests
included) may send no dashboard message at all.
-/

inductive Decision where
  | allow : Decision
  | deny : Decision
deriving DecidableEq

def dmTag : DashboardMessage → String
  | .addExistingPlayer _ => "add-existing-player"
  | .addNewPlayer _ => "add-new-player"
  | .removePlayer _ => "remove-player"
  | .setGameResult _ _ _ => "set-game-result"
  | .startTournament _ _ => "start-tournament"
  | .resetTournament => "reset-tournament"
  | .newRound _ _ _ => "new-round"
  | .finishTournament _ => "finish-tournament"
  | .deleteTournament => "delete-tournament"
  | .error _ => "error"

/-- Modelled from the spec: the message types a `player` may not send. -/
def playerDenied : List String :=
  ["start-tournament", "reset-tournament", "finish-tournament", "delete-tournament",
   "new-round", "add-existing-player", "add-new-player", "remove-player", "set-game-result"]

/-- Modelled from the spec: `authorize(ctx, msg) -> Allow | Deny`. -/
def authorize (d : WebSocketData) (m : DashboardMessage) : Decision :=
  match statusOf d with
  | .organizer => .allow
  | .viewer => .deny
  | .player => if dmTag m ∈ playerDenied then .deny else .allow

/-- The five message types the claim lists for the `player` role. -/
def controlledFive : List String :=
  ["start-tournament", "reset-tournament", "finish-tournament", "delete-tournament",
   "set-game-result"]

/-- C1 (spec-modelled): a `player` context is denied the five listed
control messages, an `organizer` context is allowed every dashboard
message, and a `viewer` context (guests included) is denied every
dashboard message. -/
theorem authorize_roles (d : WebSocketData) (m : DashboardMessage) :
    (statusOf d = .player → dmTag m ∈ controlledFive → authorize d m = .deny) ∧
    (statusOf d = .organizer → authorize d m = .allow) ∧
    (statusOf d = .viewer → authorize d m = .deny) := by
  refine ⟨?_, ?_, ?_⟩
  · intro hs hm
    unfold authorize
    rw [hs]
    have hnine : dmTag m ∈ playerDenied := by
      simp only [controlledFive, List.mem_cons, List.not_mem_nil, or_false] at hm
      rcases hm with h | h | h | h | h <;> simp [playerDenied, h]
    rw [if_pos hnine]
  · intro hs
    unfold authorize
    rw [hs]
  · intro hs
    unfold authorize
    rw [hs]

theorem authorize_roles_witness :
    authorize (.tournamentAuth "player1" "tour1" .player "player123") .resetTournament =
      .deny :=
  (authorize_roles (.tournamentAuth "player1" "tour1" .player "player123")
    .resetTournament).1 rfl (by decide)

/-! ## Topic derivation (spec section 3 and the subscription-topic tests) -/

/-- Modelled from the spec: the single topic a connection subscribes to for
its lifetime, derived from its context — `tournament:` ++ tournamentId for
tournament connections, `user:` ++ userId for global connections (the
topic format strings are pinned by the shipped tests). -/
def deriveTopic : WebSocketData → String
  | .tournamentAuth _ tid _ _ => "tournament:" ++ tid
  | .tournamentGuest tid _ => "tournament:" ++ tid
  | .globalConn _ uid _ => "user:" ++ uid

/-- C9 (spec-modelled): the topic is a deterministic function of the
context — every tournament connection maps to `tournament:` ++ its
tournamentId, every global connection to `user:` ++ its userId, and every
context has exactly one topic. -/
theorem deriveTopic_shape :
    (∀ u tid st uid, deriveTopic (.tournamentAuth u tid st uid) = "tournament:" ++ tid) ∧
    (∀ tid ip, deriveTopic (.tournamentGuest tid ip) = "tournament:" ++ tid) ∧
    (∀ u uid st, deriveTopic (.globalConn u uid st) = "user:" ++ uid) ∧
    (∀ d : WebSocketData, ∃! t : String, deriveTopic d = t) :=
  ⟨fun _ _ _ _ => rfl, fun _ _ => rfl, fun _ _ _ => rfl,
    fun d => ⟨deriveTopic d, rfl, fun _ ht => ht.symm⟩⟩

/-! ## Topic Registry

Modelled from the spec: the topic registry (section 4.3) is not among the
shipped sources.  It is the in-memory mapping from topic string to the set
of subscribed connection handles; `subscribe` is idempotent, `unsubscribe`
removes (no-op when absent), and a broadcast to a topic is delivered to
exactly the currently subscribed connections of that topic.
-/

def Registry : Type := String → Finset Nat

def emptyReg : Registry := fun _ => ∅

def subscribe (r : Registry) (t : String) (c : Nat) : Registry :=
  fun t' => if t' = t then insert c (r t') else r t'

def unsubscribe (r : Registry) (t : String) (c : Nat) : Registry :=
  fun t' => if t' = t then (r t').erase c else r t'

/-- The connections a broadcast to `t` is delivered to. -/
def recipients (r : Registry) (t : String) : Finset Nat := r t

def subAll (t : String) (l : List Nat) (r : Registry) : Registry :=
  l.foldl (fun r c => subscribe r t c) r

def unsubAll (t : String) (l : List Nat) (r : Registry) : Registry :=
  l.foldl (fun r c => unsubscribe r t c) r

theorem subAll_apply (t : String) (l : List Nat) (r : Registry) (t' : String) :
    subAll t l r t' = if t' = t then r t' ∪ l.toFinset else r t' := by
  induction l generalizing r with
  | nil =>
    unfold subAll
    simp
  | cons c cs ih =>
    show subAll t cs (subscribe r t c) t' = _
    rw [ih]
    unfold subscribe
    by_cases h : t' = t
    · rw [if_pos h, if_pos h, if_pos h]
      rw [List.toFinset_cons]
      rw [Finset.union_insert, Finset.insert_union]
    · rw [if_neg h, if_neg h, if_neg h]

theorem unsubAll_apply (t : String) (l : List Nat) (r : Registry) (t' : String) :
    unsubAll t l r t' = if t' = t then r t' \ l.toFinset else r t' := by
  induction l generalizing r with
  | nil =>
    unfold unsubAll
    simp
  | cons c cs ih =>
    show unsubAll t cs (unsubscribe r t c) t' = _
    rw [ih]
    unfold unsubscribe
    by_cases h : t' = t
    · rw [if_pos h, if_pos h, if_pos h]
      ext a
      simp only [Finset.mem_sdiff, Finset.mem_erase, List.toFinset_cons, Finset.mem_insert,
        List.mem_toFinset]
      tauto
    · rw [if_neg h, if_neg h, if_neg h]

/-- C5 (spec-modelled): after the connections of `l` subscribe to topic `T`
and those of `m` disconnect, exactly `l.length - m.length` remain
subscribed and receive subsequent broadcasts (namely those of `l` not in
`m`), and a different topic `T'` has no recipients at all: a connection
subscribed only to `T` never receives a broadcast to another topic. -/
theorem topic_membership (T T' : String) (l m : List Nat) (hl : l.Nodup) (hm : m.Nodup)
    (hsub : ∀ x ∈ m, x ∈ l) (hne : T' ≠ T) :
    (recipients (unsubAll T m (subAll T l emptyReg)) T).card = l.length - m.length ∧
    (∀ c, c ∈ recipients (unsubAll T m (subAll T l emptyReg)) T ↔ c ∈ l ∧ c ∉ m) ∧
    recipients (unsubAll T m (subAll T l emptyReg)) T' = ∅ := by
  have h1 : recipients (unsubAll T m (subAll T l emptyReg)) T = l.toFinset \ m.toFinset := by
    unfold recipients
    rw [unsubAll_apply, if_pos rfl, subAll_apply, if_pos rfl]
    unfold emptyReg
    simp
  refine ⟨?_, ?_, ?_⟩
  · rw [h1, Finset.card_sdiff ?_]
    · rw [List.toFinset_card_of_nodup hl, List.toFinset_card_of_nodup hm]
    · intro x hx
      rw [List.mem_toFinset] at hx ⊢
      exact hsub x hx
  · intro c
    rw [h1]
    simp
  · unfold recipients
    rw [unsubAll_apply, if_neg hne, subAll_apply, if_neg hne]
    rfl

theorem topic_membership_witness :
    (recipients (unsubAll "tournament:t1" [1] (subAll "tournament:t1" [0, 1, 2] emptyReg))
      "tournament:t1").card = 2 :=
  (topic_membership "tournament:t1" "tournament:t2" [0, 1, 2] [1] (by decide) (by decide)
    (by decide) (by decide)).1

theorem decrypt_tamper_witness :
    decrypt 5 (String.mk ((encrypt 5 "ab").data.set 0 'z')) = none :=
  decrypt_tamper 5 "ab" 0 'z' (by decide) (by decide)
